import Mathlib

/-!
Verification of the matchmaking-simulator core (`src/types.rs`,
`src/matchmaker.rs`, `src/simulation.rs`, `src/lib.rs`).

Shallow embedding conventions:
* Rust `f64` values are modelled by `ℚ`: every numeric operation the claims
  depend on (addition, multiplication, `min`/`max`, `abs`, comparisons,
  saturating subtraction) is exact rational arithmetic in the source.  The
  single transcendental computation — the haversine geographic distance —
  is modelled over `ℝ`.
* Rust `HashMap`/`HashSet` values are modelled by association lists /
  plain lists.  Where the source iterates such a container in unspecified
  order, the model fixes insertion order; no claim below depends on the
  choice of order.
* `f64::MAX` (the fold seed used by the source for min/max folds) is the
  exact rational `2^1024 - 2^971`.
-/

/-- First-match association-list lookup (models `HashMap::get`). -/
def lookupAssoc {κ β : Type} [DecidableEq κ] : List (κ × β) → κ → Option β
  | [], _ => none
  | (k, v) :: rest, key => if k = key then some v else lookupAssoc rest key

/-- Modify the value at the first matching key, if present
(models `HashMap::get_mut` followed by an in-place update). -/
def updateAssoc {κ β : Type} [DecidableEq κ] : List (κ × β) → κ → (β → β) → List (κ × β)
  | [], _, _ => []
  | (k, v) :: rest, key, f =>
      if k = key then (k, f v) :: rest else (k, v) :: updateAssoc rest key f

/-- Remove the first entry with the given key (models `HashMap::remove`). -/
def removeAssoc {κ β : Type} [DecidableEq κ] : List (κ × β) → κ → List (κ × β)
  | [], _ => []
  | (k, v) :: rest, key => if k = key then rest else (k, v) :: removeAssoc rest key

/-- `entry(k).or_insert(0) += 1` on a count map, insertion order preserved. -/
def insertCount {κ : Type} [DecidableEq κ] (l : List (κ × Nat)) (k : κ) : List (κ × Nat) :=
  match lookupAssoc l k with
  | some _ => updateAssoc l k (· + 1)
  | none => l ++ [(k, 1)]

/-- Stable insertion into a list sorted by the strict comparator `lt`:
the new element is placed before the first element not strictly below it. -/
def insertSorted {α : Type} (lt : α → α → Bool) (x : α) : List α → List α
  | [] => [x]
  | y :: ys => if lt y x then y :: insertSorted lt x ys else x :: y :: ys

/-- Stable sort by the strict comparator `lt`; extensionally equal to the
stable `sort_by` of the source for a total order. -/
def insertionSortBy {α : Type} (lt : α → α → Bool) : List α → List α
  | [] => []
  | x :: xs => insertSorted lt x (insertionSortBy lt xs)

/-- Deduplicate, keeping first occurrences (models collecting into a set). -/
def dedupList {α : Type} [DecidableEq α] (l : List α) : List α :=
  l.foldl (fun acc x => if x ∈ acc then acc else acc ++ [x]) []

/-- The exact rational value of `f64::MAX` (the integer `2 ^ 1024 - 2 ^ 971`,
written as a literal so that kernel evaluation needs no power recursion). -/
def f64Max : ℚ := 179769313486231570814527423731704356798070567525844996598917476803157260780028538760589558632766878171540458953514382464234321326889464182768467546703537516986049910576551282076245490090389328944075868508455133942304583236903222948165808559332123348274797826204144723168738177180919299881250404026184124858368

theorem mem_insertSorted {α : Type} (lt : α → α → Bool) (x a : α) :
    ∀ l : List α, a ∈ insertSorted lt x l ↔ a = x ∨ a ∈ l := by
  intro l
  induction l with
  | nil => simp [insertSorted]
  | cons y ys ih =>
      by_cases h : lt y x = true <;> simp [insertSorted, h, ih] <;> tauto

theorem mem_insertionSortBy {α : Type} (lt : α → α → Bool) (a : α) :
    ∀ l : List α, a ∈ insertionSortBy lt l ↔ a ∈ l := by
  intro l
  induction l with
  | nil => simp [insertionSortBy]
  | cons x xs ih => simp [insertionSortBy, mem_insertSorted, ih]

theorem foldl_preserve {α β : Type} {P : β → Prop} (f : β → α → β) :
    ∀ (l : List α) (init : β), P init → (∀ b a, a ∈ l → P b → P (f b a)) →
      P (l.foldl f init) := by
  intro l
  induction l with
  | nil => intro init h _; simpa using h
  | cons x xs ih =>
      intro init h hstep
      simp only [List.foldl_cons]
      exact ih (f init x) (hstep init x (by simp) h)
        (fun b a ha hb => hstep b a (by simp [ha]) hb)

theorem lookupAssoc_updateAssoc_self {κ β : Type} [DecidableEq κ]
    (k : κ) (f : β → β) :
    ∀ l : List (κ × β), lookupAssoc (updateAssoc l k f) k = (lookupAssoc l k).map f := by
  intro l
  induction l with
  | nil => simp [lookupAssoc, updateAssoc]
  | cons e rest ih =>
      obtain ⟨k', v⟩ := e
      by_cases h : k' = k
      · subst h; simp [lookupAssoc, updateAssoc]
      · simp [lookupAssoc, updateAssoc, h, ih]

theorem lookupAssoc_updateAssoc_other {κ β : Type} [DecidableEq κ]
    (k k' : κ) (f : β → β) (hne : k' ≠ k) :
    ∀ l : List (κ × β), lookupAssoc (updateAssoc l k f) k' = lookupAssoc l k' := by
  intro l
  induction l with
  | nil => simp [lookupAssoc, updateAssoc]
  | cons e rest ih =>
      obtain ⟨k0, v⟩ := e
      by_cases h : k0 = k
      · subst h
        simp [lookupAssoc, updateAssoc, Ne.symm hne]
      · simp only [updateAssoc, if_neg h, lookupAssoc]
        by_cases h' : k0 = k'
        · simp [h']
        · simp [h', ih]

/-! ## Entity model (`src/types.rs`) -/

/-- Geographic coordinates; the source stores `f64` latitude/longitude. -/
structure Location where
  lat : ℚ
  lon : ℚ
deriving DecidableEq

/-- Geographic regions for matchmaking. -/
inductive Region where
  | NorthAmerica
  | Europe
  | AsiaPacific
  | SouthAmerica
  | Other
deriving DecidableEq, Fintype

/-- `Region::adjacent_regions`: NA↔EU, NA↔SA, EU↔APAC, APAC↔SA,
`Other` adjacent to all. -/
def Region.adjacent_regions : Region → List Region
  | .NorthAmerica => [.Europe, .SouthAmerica]
  | .Europe => [.NorthAmerica, .AsiaPacific]
  | .AsiaPacific => [.Europe, .SouthAmerica]
  | .SouthAmerica => [.NorthAmerica, .AsiaPacific]
  | .Other => [.NorthAmerica, .Europe, .AsiaPacific, .SouthAmerica]

/-- Platform types. -/
inductive Platform where
  | PC
  | PlayStation
  | Xbox
deriving DecidableEq, Fintype

/-- Input device types. -/
inductive InputDevice where
  | Controller
  | MouseKeyboard
deriving DecidableEq, Fintype

/-- Player activity state. -/
inductive PlayerState where
  | Offline
  | InLobby
  | Searching
  | InMatch
deriving DecidableEq, Fintype

/-- Available playlists / game modes. -/
inductive Playlist where
  | TeamDeathmatch
  | SearchAndDestroy
  | Domination
  | GroundWar
  | FreeForAll
deriving DecidableEq, Fintype

def Playlist.required_players : Playlist → Nat
  | .TeamDeathmatch => 12
  | .SearchAndDestroy => 12
  | .Domination => 12
  | .GroundWar => 64
  | .FreeForAll => 12

def Playlist.team_count : Playlist → Nat
  | .FreeForAll => 12
  | .GroundWar => 2
  | _ => 2

/-- The fixed playlist processing order of `Matchmaker::run_tick`. -/
def playlistOrder : List Playlist :=
  [.TeamDeathmatch, .SearchAndDestroy, .Domination, .GroundWar, .FreeForAll]

/-- Blowout severity classification. -/
inductive BlowoutSeverity where
  | Mild
  | Moderate
  | Severe
deriving DecidableEq, Fintype

/-- Experience vector for a single match. -/
structure ExperienceVector where
  avg_delta_ping : ℚ
  avg_search_time : ℚ
  was_blowout : Bool
  won : Bool
  performance : ℚ
deriving DecidableEq

/-- Per-region configuration overrides. -/
structure RegionConfig where
  max_ping : Option ℚ
  delta_ping_initial : Option ℚ
  delta_ping_rate : Option ℚ
  skill_similarity_initial : Option ℚ
  skill_similarity_rate : Option ℚ
deriving DecidableEq

/-- Retention model configuration. -/
structure RetentionConfig where
  theta_ping : ℚ
  theta_search_time : ℚ
  theta_blowout : ℚ
  theta_win_rate : ℚ
  theta_performance : ℚ
  base_continue_prob : ℚ
  experience_window_size : Nat
deriving DecidableEq

/-- Matchmaking configuration parameters (`MatchmakingConfig`). -/
structure MatchmakingConfig where
  max_ping : ℚ
  delta_ping_initial : ℚ
  delta_ping_rate : ℚ
  delta_ping_max : ℚ
  skill_similarity_initial : ℚ
  skill_similarity_rate : ℚ
  skill_similarity_max : ℚ
  max_skill_disparity_initial : ℚ
  max_skill_disparity_rate : ℚ
  max_skill_disparity_max : ℚ
  weight_geo : ℚ
  weight_skill : ℚ
  weight_input : ℚ
  weight_platform : ℚ
  quality_weight_ping : ℚ
  quality_weight_skill_balance : ℚ
  quality_weight_wait_time : ℚ
  party_player_fraction : ℚ
  tick_interval : ℚ
  num_skill_buckets : Nat
  top_k_candidates : Nat
  use_exact_team_balancing : Bool
  gamma : ℚ
  blowout_skill_coefficient : ℚ
  blowout_imbalance_coefficient : ℚ
  blowout_mild_threshold : ℚ
  blowout_moderate_threshold : ℚ
  blowout_severe_threshold : ℚ
  skill_learning_rate : ℚ
  performance_noise_std : ℚ
  enable_skill_evolution : Bool
  skill_update_batch_size : Nat
  region_configs : List (Region × RegionConfig)
  retention_config : RetentionConfig
deriving DecidableEq

/-- `MatchmakingConfig::default`. -/
def MatchmakingConfig.default : MatchmakingConfig where
  max_ping := 200
  delta_ping_initial := 10
  delta_ping_rate := 2
  delta_ping_max := 100
  skill_similarity_initial := (1 / 20 : ℚ)
  skill_similarity_rate := (1 / 100 : ℚ)
  skill_similarity_max := (1 / 2 : ℚ)
  max_skill_disparity_initial := (1 / 10 : ℚ)
  max_skill_disparity_rate := (1 / 50 : ℚ)
  max_skill_disparity_max := (4 / 5 : ℚ)
  weight_geo := (3 / 10 : ℚ)
  weight_skill := (2 / 5 : ℚ)
  weight_input := (3 / 20 : ℚ)
  weight_platform := (3 / 20 : ℚ)
  quality_weight_ping := (2 / 5 : ℚ)
  quality_weight_skill_balance := (2 / 5 : ℚ)
  quality_weight_wait_time := (1 / 5 : ℚ)
  party_player_fraction := (1 / 2 : ℚ)
  tick_interval := 5
  num_skill_buckets := 10
  top_k_candidates := 50
  use_exact_team_balancing := true
  gamma := 2
  blowout_skill_coefficient := (2 / 5 : ℚ)
  blowout_imbalance_coefficient := (3 / 10 : ℚ)
  blowout_mild_threshold := (3 / 20 : ℚ)
  blowout_moderate_threshold := (7 / 20 : ℚ)
  blowout_severe_threshold := (3 / 5 : ℚ)
  skill_learning_rate := (1 / 100 : ℚ)
  performance_noise_std := (3 / 20 : ℚ)
  enable_skill_evolution := true
  skill_update_batch_size := 10
  region_configs := []
  retention_config :=
    { theta_ping := (-1 / 50 : ℚ)
      theta_search_time := (-3 / 200 : ℚ)
      theta_blowout := (-1 / 2 : ℚ)
      theta_win_rate := (4 / 5 : ℚ)
      theta_performance := (3 / 5 : ℚ)
      base_continue_prob := 0
      experience_window_size := 5 }

def MatchmakingConfig.delta_ping_backoff (c : MatchmakingConfig) (wait_time : ℚ) : ℚ :=
  min (c.delta_ping_initial + c.delta_ping_rate * wait_time) c.delta_ping_max

def MatchmakingConfig.skill_similarity_backoff (c : MatchmakingConfig) (wait_time : ℚ) : ℚ :=
  min (c.skill_similarity_initial + c.skill_similarity_rate * wait_time) c.skill_similarity_max

def MatchmakingConfig.skill_disparity_backoff (c : MatchmakingConfig) (wait_time : ℚ) : ℚ :=
  min (c.max_skill_disparity_initial + c.max_skill_disparity_rate * wait_time)
    c.max_skill_disparity_max

def MatchmakingConfig.get_region_max_ping (c : MatchmakingConfig) (region : Region) : ℚ :=
  ((lookupAssoc c.region_configs region).bind RegionConfig.max_ping).getD c.max_ping

def MatchmakingConfig.get_region_delta_ping_initial
    (c : MatchmakingConfig) (region : Region) : ℚ :=
  ((lookupAssoc c.region_configs region).bind RegionConfig.delta_ping_initial).getD
    c.delta_ping_initial

def MatchmakingConfig.get_region_delta_ping_rate
    (c : MatchmakingConfig) (region : Region) : ℚ :=
  ((lookupAssoc c.region_configs region).bind RegionConfig.delta_ping_rate).getD
    c.delta_ping_rate

def MatchmakingConfig.region_delta_ping_backoff
    (c : MatchmakingConfig) (region : Region) (wait_time : ℚ) : ℚ :=
  min (c.get_region_delta_ping_initial region +
        c.get_region_delta_ping_rate region * wait_time) c.delta_ping_max

/-- Data center information; the per-playlist capacity and busy-counter maps
are association lists (`HashMap<Playlist, usize>` in the source). -/
structure DataCenter where
  id : Nat
  name : String
  location : Location
  region : Region
  server_capacity : List (Playlist × Nat)
  busy_servers : List (Playlist × Nat)
deriving DecidableEq

/-- `DataCenter::available_servers`: `capacity.saturating_sub(busy)` with
missing keys read as 0 (`Nat` subtraction is saturating). -/
def DataCenter.available_servers (dc : DataCenter) (playlist : Playlist) : Nat :=
  (lookupAssoc dc.server_capacity playlist).getD 0 -
    (lookupAssoc dc.busy_servers playlist).getD 0

/-- Increment the busy counter for `playlist` if the key is present
(the source's `busy_servers.get_mut(&playlist)` followed by `*busy += 1`). -/
def DataCenter.bumpBusy (dc : DataCenter) (playlist : Playlist) : DataCenter :=
  match lookupAssoc dc.busy_servers playlist with
  | some _ => { dc with busy_servers := updateAssoc dc.busy_servers playlist (· + 1) }
  | none => dc

/-- Decrement the busy counter, saturating at zero
(the source's `*busy = busy.saturating_sub(1)` on match completion). -/
def DataCenter.releaseBusy (dc : DataCenter) (playlist : Playlist) : DataCenter :=
  match lookupAssoc dc.busy_servers playlist with
  | some _ => { dc with busy_servers := updateAssoc dc.busy_servers playlist (· - 1) }
  | none => dc

/-- `data_centers.iter().find(|dc| dc.id == dc_id)`. -/
def findDc (dcs : List DataCenter) (dcId : Nat) : Option DataCenter :=
  dcs.find? (fun dc => decide (dc.id = dcId))

/-- Apply `f` to the first data center with the given id
(`data_centers.iter_mut().find(|dc| dc.id == dc_id)` + in-place update). -/
def modifyDc : List DataCenter → Nat → (DataCenter → DataCenter) → List DataCenter
  | [], _, _ => []
  | dc :: rest, dcId, f =>
      if dc.id = dcId then f dc :: rest else dc :: modifyDc rest dcId f

/-- Busy-counter increment at lobby commit (`run_tick`, reserve-server step). -/
def reserveServer (dcs : List DataCenter) (dcId : Nat) (playlist : Playlist) :
    List DataCenter :=
  modifyDc dcs dcId (·.bumpBusy playlist)

/-- Busy-counter decrement at match completion (`process_match_completions`). -/
def releaseServer (dcs : List DataCenter) (dcId : Nat) (playlist : Playlist) :
    List DataCenter :=
  modifyDc dcs dcId (·.releaseBusy playlist)

/-- Player statistics and state (`Player`). -/
structure Player where
  id : Nat
  location : Location
  region : Region
  platform : Platform
  input_device : InputDevice
  voice_chat_enabled : Bool
  skill : ℚ
  skill_percentile : ℚ
  skill_bucket : Nat
  state : PlayerState
  current_match : Option Nat
  party_id : Option Nat
  preferred_playlists : List Playlist
  dc_pings : List (Nat × ℚ)
  best_dc : Option Nat
  best_ping : ℚ
  search_start_time : Option Nat
  matches_played : Nat
  total_kills : Nat
  total_deaths : Nat
  wins : Nat
  losses : Nat
  recent_delta_pings : List ℚ
  recent_search_times : List ℚ
  recent_blowouts : List Bool
  recent_performance : List ℚ
  continuation_prob : ℚ
  recent_experience : List ExperienceVector
  session_start_time : Option Nat
  matches_in_session : Nat
  last_session_experience : List ExperienceVector
  last_session_end_time : Option Nat
deriving DecidableEq

/-- `Player::acceptable_dcs`: region-aware three-tier backoff plus the two
ping constraints, filtering the player's ping map. -/
def Player.acceptable_dcs (p : Player) (wait_time : ℚ) (cfg : MatchmakingConfig)
    (player_region : Region) (data_centers : List DataCenter) : List Nat :=
  let delta_ping_allowed := cfg.region_delta_ping_backoff player_region wait_time
  let maxPing := cfg.get_region_max_ping player_region
  let acceptable_regions : List Region :=
    if wait_time < 10 then [player_region]
    else if wait_time < 30 then player_region :: player_region.adjacent_regions
    else [.NorthAmerica, .Europe, .AsiaPacific, .SouthAmerica, .Other]
  (p.dc_pings.filter (fun e =>
      decide (e.2 ≤ p.best_ping + delta_ping_allowed) && decide (e.2 ≤ maxPing) &&
        match findDc data_centers e.1 with
        | some dc => decide (dc.region ∈ acceptable_regions)
        | none => false)).map Prod.fst

/-- A party of players searching together (`Party`). -/
structure Party where
  id : Nat
  player_ids : List Nat
  leader_id : Nat
  avg_skill : ℚ
  skill_disparity : ℚ
  avg_skill_percentile : ℚ
  skill_percentile_disparity : ℚ
  preferred_playlists : List Playlist
  platforms : List (Platform × Nat)
  input_devices : List (InputDevice × Nat)
  avg_location : Location
deriving DecidableEq

/-- `Party::from_players`; the source panics on an empty list (the empty
case below is unreachable for all callers). -/
def Party.from_players (id : Nat) (players : List Player) : Party :=
  match players with
  | [] =>
      { id := id, player_ids := [], leader_id := 0, avg_skill := 0, skill_disparity := 0
        avg_skill_percentile := 0, skill_percentile_disparity := 0
        preferred_playlists := [], platforms := [], input_devices := []
        avg_location := ⟨0, 0⟩ }
  | p0 :: rest =>
      let player_ids := (p0 :: rest).map (·.id)
      let skills := (p0 :: rest).map (·.skill)
      let avg_skill := skills.sum / (skills.length : ℚ)
      let skill_disparity :=
        skills.foldl max (-f64Max) - skills.foldl min f64Max
      let percentiles := (p0 :: rest).map (·.skill_percentile)
      let avg_skill_percentile := percentiles.sum / (percentiles.length : ℚ)
      let skill_percentile_disparity :=
        percentiles.foldl max (-f64Max) - percentiles.foldl min f64Max
      let preferred_playlists :=
        rest.foldl (fun acc p => acc.filter (fun pl => decide (pl ∈ p.preferred_playlists)))
          p0.preferred_playlists
      let platforms := (p0 :: rest).foldl (fun acc p => insertCount acc p.platform) []
      let input_devices :=
        (p0 :: rest).foldl (fun acc p => insertCount acc p.input_device) []
      let avg_location : Location :=
        ⟨((p0 :: rest).map (·.location.lat)).sum / ((p0 :: rest).length : ℚ),
         ((p0 :: rest).map (·.location.lon)).sum / ((p0 :: rest).length : ℚ)⟩
      { id := id, player_ids := player_ids, leader_id := p0.id, avg_skill := avg_skill
        skill_disparity := skill_disparity, avg_skill_percentile := avg_skill_percentile
        skill_percentile_disparity := skill_percentile_disparity
        preferred_playlists := preferred_playlists, platforms := platforms
        input_devices := input_devices, avg_location := avg_location }

/-- `Party::update_aggregates`: recompute the denormalized aggregates from
the current member players; a party whose members are all missing from the
player table is returned unchanged (the source's early `return`). -/
def Party.update_aggregates (party : Party) (players : List (Nat × Player)) : Party :=
  let party_players := party.player_ids.filterMap (lookupAssoc players)
  match party_players with
  | [] => party
  | p0 :: rest =>
      let skills := (p0 :: rest).map (·.skill)
      let percentiles := (p0 :: rest).map (·.skill_percentile)
      { party with
        avg_skill := skills.sum / (skills.length : ℚ)
        skill_disparity := skills.foldl max (-f64Max) - skills.foldl min f64Max
        avg_skill_percentile := percentiles.sum / (percentiles.length : ℚ)
        skill_percentile_disparity :=
          percentiles.foldl max (-f64Max) - percentiles.foldl min f64Max
        preferred_playlists :=
          rest.foldl
            (fun acc p => acc.filter (fun pl => decide (pl ∈ p.preferred_playlists)))
            p0.preferred_playlists
        platforms := (p0 :: rest).foldl (fun acc p => insertCount acc p.platform) []
        input_devices :=
          (p0 :: rest).foldl (fun acc p => insertCount acc p.input_device) []
        avg_location :=
          ⟨((p0 :: rest).map (·.location.lat)).sum / ((p0 :: rest).length : ℚ),
           ((p0 :: rest).map (·.location.lon)).sum / ((p0 :: rest).length : ℚ)⟩ }

/-- A search object (one solo player or one party in the queue). -/
structure SearchObject where
  id : Nat
  player_ids : List Nat
  avg_skill_percentile : ℚ
  skill_disparity : ℚ
  avg_location : Location
  platforms : List (Platform × Nat)
  input_devices : List (InputDevice × Nat)
  acceptable_playlists : List Playlist
  search_start_time : Nat
  acceptable_dcs : List Nat
deriving DecidableEq

def SearchObject.size (s : SearchObject) : Nat :=
  s.player_ids.length

/-- `SearchObject::wait_time`: `(current_time - search_start_time) * tick_interval`
in seconds; the `u64` subtraction is modelled by truncated `Nat` subtraction
(callers only use `search_start_time ≤ current_time`). -/
def SearchObject.wait_time (s : SearchObject) (current_time : Nat) (tick_interval : ℚ) : ℚ :=
  ((current_time - s.search_start_time : Nat) : ℚ) * tick_interval

/-- Result of a successful feasibility check. -/
structure FeasibilityResult where
  data_center_id : Nat
  skill_disparity : ℚ
deriving DecidableEq

/-- A committed match as emitted by `Matchmaker::run_tick`. -/
structure MatchResult where
  player_ids : List Nat
  teams : List (List Nat)
  playlist : Playlist
  data_center_id : Nat
  quality_score : ℚ
  skill_disparity : ℚ
  avg_delta_ping : ℚ
  search_times : List ℚ
  is_cross_region : Bool
deriving DecidableEq

/-! ## Distance metric (`Matchmaker::calculate_distance`) -/

/-- Degrees to radians (`f64::to_radians`). -/
noncomputable def toRadians (x : ℝ) : ℝ :=
  x * Real.pi / 180

/-- `Location::distance_km`: haversine distance over the real numbers. -/
noncomputable def Location.distance_km (a b : Location) : ℝ :=
  let r : ℝ := 6371
  let d_lat := toRadians ((b.lat : ℝ) - (a.lat : ℝ))
  let d_lon := toRadians ((b.lon : ℝ) - (a.lon : ℝ))
  let lat1 := toRadians (a.lat : ℝ)
  let lat2 := toRadians (b.lat : ℝ)
  let h := Real.sin (d_lat / 2) ^ 2 +
    Real.cos lat1 * Real.cos lat2 * Real.sin (d_lon / 2) ^ 2
  let c := 2 * Real.arcsin (Real.sqrt h)
  r * c

/-- `Matchmaker::input_device_distance`: a (1 / 2 : ℚ) penalty whenever one side has
a mouse-and-keyboard player and the other a controller player. -/
def input_device_distance (a b : SearchObject) : ℚ :=
  let a_mkb := (lookupAssoc a.input_devices InputDevice.MouseKeyboard).getD 0
  let b_mkb := (lookupAssoc b.input_devices InputDevice.MouseKeyboard).getD 0
  let a_ctrl := (lookupAssoc a.input_devices InputDevice.Controller).getD 0
  let b_ctrl := (lookupAssoc b.input_devices InputDevice.Controller).getD 0
  if (a_mkb > 0 ∧ b_ctrl > 0) ∨ (a_ctrl > 0 ∧ b_mkb > 0) then (1 / 2 : ℚ) else 0

/-- `Matchmaker::platform_distance`: a (3 / 10 : ℚ) penalty when the platform key sets
are disjoint. -/
def platform_distance (a b : SearchObject) : ℚ :=
  if ∀ p ∈ a.platforms.map Prod.fst, p ∉ b.platforms.map Prod.fst then (3 / 10 : ℚ) else 0

/-- `Matchmaker::calculate_distance`: weighted sum of normalized geographic
distance, percentile difference, input-device penalty and platform penalty. -/
noncomputable def calculate_distance (cfg : MatchmakingConfig) (a b : SearchObject) : ℝ :=
  let geo_dist := Location.distance_km a.avg_location b.avg_location / 20000
  let skill_dist := |(a.avg_skill_percentile : ℝ) - (b.avg_skill_percentile : ℝ)|
  let input_dist := (input_device_distance a b : ℝ)
  let platform_dist := (platform_distance a b : ℝ)
  (cfg.weight_geo : ℝ) * geo_dist + (cfg.weight_skill : ℝ) * skill_dist +
    (cfg.weight_input : ℝ) * input_dist + (cfg.weight_platform : ℝ) * platform_dist

/-! ## Feasibility (`Matchmaker::check_feasibility`) -/

/-- `π_min(M)`: fold of `f64::min` over member percentiles seeded with `f64::MAX`. -/
def lobbyPiMin (searches : List SearchObject) : ℚ :=
  (searches.map (·.avg_skill_percentile)).foldl min f64Max

/-- `π_max(M)`: fold of `f64::max` over member percentiles seeded with `f64::MIN`. -/
def lobbyPiMax (searches : List SearchObject) : ℚ :=
  (searches.map (·.avg_skill_percentile)).foldl max (-f64Max)

/-- Intersection of the members' acceptable data centers, as the source folds
it (`None` start, clone of the first set, then pairwise intersection). -/
def intersectAll : List (List Nat) → List Nat
  | [] => []
  | l :: ls => ls.foldl (fun acc d => acc.filter (fun x => decide (x ∈ d))) l

/-- Primary region: the plurality region over the member players, with
`Iterator::max_by_key` semantics (of equal counts the last wins); the count
map is built in player iteration order.  Defaults to `Other` when no member
player is found. -/
def primaryRegion (searches : List SearchObject) (players : List (Nat × Player)) : Region :=
  let region_counts : List (Region × Nat) :=
    searches.foldl (fun acc s =>
      s.player_ids.foldl (fun acc2 pid =>
        match lookupAssoc players pid with
        | some p => insertCount acc2 p.region
        | none => acc2) acc) []
  match region_counts.foldl
      (fun best e =>
        match best with
        | none => some e
        | some b => if b.2 ≤ e.2 then some e else some b)
      none with
  | some b => b.1
  | none => Region.Other

/-- `Matchmaker::check_feasibility` (the region-aware matchmaker version):
playlist membership, lobby size, skill containment, skill spread, common
data centers, then the region-prioritized search for an available server. -/
def check_feasibility (cfg : MatchmakingConfig) (searches : List SearchObject)
    (playlist : Playlist) (current_time : Nat) (data_centers : List DataCenter)
    (players : List (Nat × Player)) : Option FeasibilityResult :=
  if ¬ (∀ s ∈ searches, playlist ∈ s.acceptable_playlists) then none
  else
    let total_size := (searches.map SearchObject.size).sum
    if total_size > playlist.required_players then none
    else
      let pi_min := lobbyPiMin searches
      let pi_max := lobbyPiMax searches
      if ¬ (∀ s ∈ searches,
          s.avg_skill_percentile -
              cfg.skill_similarity_backoff (s.wait_time current_time cfg.tick_interval) ≤
            pi_min ∧
          pi_max ≤ s.avg_skill_percentile +
              cfg.skill_similarity_backoff (s.wait_time current_time cfg.tick_interval)) then
        none
      else
        let delta_pi_m := pi_max - pi_min
        let max_disparity_allowed :=
          (searches.map (fun s =>
            cfg.skill_disparity_backoff (s.wait_time current_time cfg.tick_interval))).foldl
            min f64Max
        if delta_pi_m > max_disparity_allowed then none
        else
          let common_dcs := intersectAll (searches.map (·.acceptable_dcs))
          if common_dcs = [] then none
          else
            let primary_region := primaryRegion searches players
            let adjacent_regions := primary_region.adjacent_regions
            let prioritized_dcs := common_dcs.filter (fun dcId =>
              match findDc data_centers dcId with
              | some dc => decide (dc.region = primary_region)
              | none => false)
            let adjacent_dcs := common_dcs.filter (fun dcId =>
              match findDc data_centers dcId with
              | some dc => decide (dc.region ≠ primary_region ∧ dc.region ∈ adjacent_regions)
              | none => false)
            let other_dcs := common_dcs.filter (fun dcId =>
              match findDc data_centers dcId with
              | some dc => decide (dc.region ≠ primary_region ∧ dc.region ∉ adjacent_regions)
              | none => false)
            let all_prioritized := prioritized_dcs ++ adjacent_dcs ++ other_dcs
            (all_prioritized.find? (fun dcId =>
                match findDc data_centers dcId with
                | some dc => decide (0 < dc.available_servers playlist)
                | none => false)).map
              (fun dcId => ⟨dcId, delta_pi_m⟩)

/-- `Matchmaker::calculate_quality`. -/
def calculate_quality (cfg : MatchmakingConfig) (searches : List SearchObject)
    (players : List (Nat × Player)) (dc_id : Nat) (current_time : Nat) : ℚ :=
  let deltas : List ℚ := searches.foldl (fun acc s =>
    s.player_ids.foldl (fun acc2 pid =>
      match lookupAssoc players pid with
      | some p =>
          match lookupAssoc p.dc_pings dc_id with
          | some ping => acc2 ++ [ping - p.best_ping]
          | none => acc2
      | none => acc2) acc) []
  let avg_delta_ping := if deltas.length > 0 then deltas.sum / (deltas.length : ℚ) else 0
  let ping_quality := 1 - min (avg_delta_ping / cfg.max_ping) 1
  let skills := searches.map (·.avg_skill_percentile)
  let skill_variance :=
    if skills.length > 1 then
      let mean := skills.sum / (skills.length : ℚ)
      (skills.map (fun s => (s - mean) ^ 2)).sum / (skills.length : ℚ)
    else 0
  let skill_balance_quality := 1 - min (skill_variance * 4) 1
  let avg_wait :=
    (searches.map (fun s => s.wait_time current_time cfg.tick_interval)).sum /
      (searches.length : ℚ)
  let wait_quality := min (avg_wait / 60) 1
  cfg.quality_weight_ping * ping_quality +
    cfg.quality_weight_skill_balance * skill_balance_quality +
    cfg.quality_weight_wait_time * wait_quality

/-! ## Team balancing (`Matchmaker::balance_teams`) -/

/-- Ordered concatenation of lists (iteratively extending a team roster). -/
def joinList {α : Type} (L : List (List α)) : List α :=
  L.foldr (· ++ ·) []

/-- One party entry of `balance_teams`: the source's tuple
`(party_id, member_ids, avg_skill, party_size)`. -/
structure PartyEntry where
  party_id : Option Nat
  member_ids : List Nat
  avg_skill : ℚ
  size : Nat
deriving DecidableEq

/-- Append a player to the group keyed by its `party_id`, creating the group
at the end when absent (the source's `party_groups.entry(..).push(..)`;
`HashMap` iteration order is modelled as insertion order). -/
def insertGroup :
    List (Option Nat × List Nat) → Option Nat → Nat → List (Option Nat × List Nat)
  | [], k, pid => [(k, [pid])]
  | (k', l) :: rest, k, pid =>
      if k' = k then (k', l ++ [pid]) :: rest else (k', l) :: insertGroup rest k pid

/-- Accumulator of the branch-and-bound partition search: current best
difference (seeded with `f64::MAX`) and best partition found so far. -/
structure ExactAcc where
  best_diff : ℚ
  best_partition : Option (List (List Nat))
deriving DecidableEq

/-- Build the two-team assignment from the chosen team-1 entry indices
(the base-case construction of `exact_partition_recursive`). -/
def buildTeams (entries : List PartyEntry) (t1idx : List Nat) : List (List Nat) :=
  [joinList ((entries.enum.filter (fun e => decide (e.1 ∈ t1idx))).map (·.2.member_ids)),
   joinList ((entries.enum.filter (fun e => decide (e.1 ∉ t1idx))).map (·.2.member_ids))]

/-- `Matchmaker::exact_partition_recursive`.  The source's `depth > 1000`
cutoff is modelled by the structural fuel argument (`fuel = 1001 - depth`);
both return the accumulator unchanged once the cap is hit. -/
def exact_partition_recursive (party_entries : List PartyEntry) (target_team_size : Nat) :
    Nat → Nat → List Nat → Nat → ℚ → ExactAcc → ExactAcc
  | 0, _, _, _, _, acc => acc
  | fuel + 1, idx, t1idx, t1size, t1skill, acc =>
      if party_entries.length ≤ idx then
        if t1size = target_team_size then
          let team2_skill :=
            ((party_entries.enum.filter (fun e => decide (e.1 ∉ t1idx))).map
              (fun e => e.2.avg_skill * (e.2.size : ℚ))).sum
          let diff := |t1skill - team2_skill|
          if diff < acc.best_diff then ⟨diff, some (buildTeams party_entries t1idx)⟩
          else acc
        else acc
      else
        let entry := party_entries.getD idx ⟨none, [], 0, 0⟩
        let acc1 :=
          if t1size + entry.size ≤ target_team_size then
            let t1idx' := t1idx ++ [idx]
            let t1size' := t1size + entry.size
            let t1skill' := t1skill + entry.avg_skill * (entry.size : ℚ)
            let remaining_skill :=
              ((party_entries.enum.filter
                  (fun e => decide (idx < e.1 ∧ e.1 ∉ t1idx'))).map
                (fun e => e.2.avg_skill * (e.2.size : ℚ))).sum
            let current_diff := |t1skill' - remaining_skill|
            if current_diff < acc.best_diff then
              exact_partition_recursive party_entries target_team_size fuel (idx + 1)
                t1idx' t1size' t1skill' acc
            else acc
          else acc
        if t1size < target_team_size then
          exact_partition_recursive party_entries target_team_size fuel (idx + 1)
            t1idx t1size t1skill acc1
        else acc1

/-- `Matchmaker::exact_partition_teams`. -/
def exact_partition_teams (party_entries : List PartyEntry) (required_players : Nat) :
    Option (List (List Nat)) :=
  let target_team_size := required_players / 2
  let total_size := (party_entries.map (·.size)).sum
  if total_size ≠ required_players then none
  else
    (exact_partition_recursive party_entries target_team_size 1001 0 [] 0 0
      ⟨f64Max, none⟩).best_partition

/-- One step of the snake-draft assignment loop: add the party's members to
the current team, then advance the team index in the snake pattern. -/
def snakeStep (team_count : Nat) (st : List (List Nat) × Bool × Nat) (e : PartyEntry) :
    List (List Nat) × Bool × Nat :=
  let teams := st.1
  let forward := st.2.1
  let team_idx := st.2.2
  let teams' := teams.set team_idx ((teams.getD team_idx []) ++ e.member_ids)
  let next : Bool × Nat :=
    if forward then
      if team_idx = team_count - 1 then (false, team_idx) else (true, team_idx + 1)
    else
      if team_idx = 0 then (true, team_idx) else (false, team_idx - 1)
  (teams', next)

/-- The snake-draft assignment loop of `balance_teams`. -/
def snakeAssign (entries : List PartyEntry) (team_count : Nat) : List (List Nat) :=
  (entries.foldl (snakeStep team_count) (List.replicate team_count [], true, 0)).1

/-- The party entries of `balance_teams`: groups in insertion order, with the
source's average-skill selection (party aggregate, fallback mean, or the
first solo member's skill). -/
def partyEntries (player_ids : List Nat) (players : List (Nat × Player))
    (parties : List (Nat × Party)) : List PartyEntry :=
  let party_groups : List (Option Nat × List Nat) :=
    player_ids.foldl
      (fun acc pid => insertGroup acc ((lookupAssoc players pid).bind (·.party_id)) pid) []
  party_groups.map (fun g =>
    let avg_skill :=
      match g.1 with
      | some pid =>
          match lookupAssoc parties pid with
          | some party => party.avg_skill
          | none =>
              (g.2.filterMap (fun id => (lookupAssoc players id).map (·.skill))).sum /
                (g.2.length : ℚ)
      | none =>
          match g.2.head? with
          | some id => ((lookupAssoc players id).map (·.skill)).getD 0
          | none => 0
    ⟨g.1, g.2, avg_skill, g.2.length⟩)

/-- `Matchmaker::balance_teams`. -/
def balance_teams (cfg : MatchmakingConfig) (player_ids : List Nat)
    (players : List (Nat × Player)) (parties : List (Nat × Party))
    (playlist : Playlist) : List (List Nat) :=
  let team_count := playlist.team_count
  if team_count = player_ids.length then
    player_ids.map (fun id => [id])
  else
    let party_entries := partyEntries player_ids players parties
    let required_players := playlist.required_players
    let is_small_playlist := required_players ≤ 12 ∧ team_count = 2
    let exact_result :=
      if is_small_playlist ∧ cfg.use_exact_team_balancing = true then
        exact_partition_teams party_entries required_players
      else none
    match exact_result with
    | some best_teams => best_teams
    | none =>
        let sorted :=
          insertionSortBy (fun a b => decide (b.avg_skill < a.avg_skill)) party_entries
        snakeAssign sorted team_count

/-! ## Per-tick assembly (`Matchmaker::run_tick`)

The source orders candidates by `calculate_distance`, whose geographic term
is transcendental; the assembly below is therefore parameterized by the
distance function `dist` into an arbitrary linearly ordered codomain — every
theorem about `run_tick` holds for all such `dist`, in particular for the
source's metric. -/

/-- The per-tick refresh of `acceptable_dcs` (first loop of `run_tick`):
fold over the member players, replacing an empty accumulator by the next
member's set and intersecting otherwise. -/
def refreshSearch (cfg : MatchmakingConfig) (players : List (Nat × Player))
    (data_centers : List DataCenter) (current_time : Nat) (s : SearchObject) :
    SearchObject :=
  let wait_time := s.wait_time current_time cfg.tick_interval
  let acceptable := s.player_ids.foldl
    (fun (acc : List Nat) pid =>
      match lookupAssoc players pid with
      | some p =>
          let player_dcs := p.acceptable_dcs wait_time cfg p.region data_centers
          if acc = [] then player_dcs
          else acc.filter (fun d => decide (d ∈ player_dcs))
      | none => acc)
    []
  { s with acceptable_dcs := acceptable }

/-- The mutable state threaded through a matchmaking tick. -/
structure TickState where
  data_centers : List DataCenter
  matched_search_ids : List Nat
  results : List MatchResult

/-- Greedy lobby extension: admit each candidate in order if it fits the
remaining size and the extended lobby is feasible. -/
def extendLobby (cfg : MatchmakingConfig) (players : List (Nat × Player))
    (playlist : Playlist) (current_time : Nat) (data_centers : List DataCenter)
    (seed : SearchObject) (candidates : List SearchObject) :
    List SearchObject × Nat :=
  candidates.foldl
    (fun (acc : List SearchObject × Nat) c =>
      if playlist.required_players ≤ acc.2 then acc
      else if playlist.required_players < acc.2 + c.size then acc
      else if (check_feasibility cfg (acc.1 ++ [c]) playlist current_time data_centers
          players).isSome then (acc.1 ++ [c], acc.2 + c.size)
      else acc)
    ([seed], seed.size)

/-- The commit step of `run_tick`: a full-size feasible lobby becomes a
`MatchResult`, its searches are marked matched and the chosen data center's
busy counter is incremented. -/
def commitLobby (cfg : MatchmakingConfig) (players : List (Nat × Player))
    (parties : List (Nat × Party)) (playlist : Playlist) (current_time : Nat)
    (st : TickState) (lobby : List SearchObject) (lobby_size : Nat) : TickState :=
  if lobby_size = playlist.required_players then
    match check_feasibility cfg lobby playlist current_time st.data_centers players with
    | some feas =>
        let quality := calculate_quality cfg lobby players feas.data_center_id current_time
        let all_players := joinList (lobby.map (·.player_ids))
        let avg_delta_ping :=
          (all_players.filterMap (fun pid =>
            (lookupAssoc players pid).bind (fun p =>
              (lookupAssoc p.dc_pings feas.data_center_id).map
                (fun ping => ping - p.best_ping)))).sum / (all_players.length : ℚ)
        let search_times := lobby.map (fun s => s.wait_time current_time cfg.tick_interval)
        let regions_in_match :=
          dedupList (all_players.filterMap (fun pid => (lookupAssoc players pid).map (·.region)))
        let is_cross_region := decide (1 < regions_in_match.length)
        let teams := balance_teams cfg all_players players parties playlist
        { data_centers := reserveServer st.data_centers feas.data_center_id playlist
          matched_search_ids := st.matched_search_ids ++ lobby.map (·.id)
          results := st.results ++
            [{ player_ids := all_players, teams := teams, playlist := playlist
               data_center_id := feas.data_center_id, quality_score := quality
               skill_disparity := feas.skill_disparity, avg_delta_ping := avg_delta_ping
               search_times := search_times, is_cross_region := is_cross_region }] }
    | none => st
  else st

/-- Seed processing of `run_tick`: skip already-matched seeds, rank the
remaining same-playlist searches by distance, truncate to top-K, extend
greedily and commit if full.  Search objects are identified by their unique
queue ids (the source compares queue positions; ids are injective for the
queue the simulation maintains). -/
def processSeed {α : Type} [LinearOrder α] (dist : SearchObject → SearchObject → α)
    (cfg : MatchmakingConfig) (players : List (Nat × Player))
    (parties : List (Nat × Party)) (playlist : Playlist) (current_time : Nat)
    (playlist_searches : List SearchObject) (st : TickState) (seed : SearchObject) :
    TickState :=
  if seed.id ∈ st.matched_search_ids then st
  else
    let candidates := (playlist_searches.filter (fun c =>
        decide (c.id ≠ seed.id) && decide (c.id ∉ st.matched_search_ids))).map
      (fun c => (c, dist seed c))
    let sorted := insertionSortBy (fun a b => decide (a.2 < b.2)) candidates
    let top := (sorted.take cfg.top_k_candidates).map Prod.fst
    let ext := extendLobby cfg players playlist current_time st.data_centers seed top
    commitLobby cfg players parties playlist current_time st ext.1 ext.2

/-- One playlist pass of `run_tick`. -/
def processPlaylist {α : Type} [LinearOrder α] (dist : SearchObject → SearchObject → α)
    (cfg : MatchmakingConfig) (players : List (Nat × Player))
    (parties : List (Nat × Party)) (current_time : Nat)
    (search_order : List SearchObject) (st : TickState) (playlist : Playlist) :
    TickState :=
  let playlist_searches := search_order.filter (fun s =>
    decide (s.id ∉ st.matched_search_ids) && decide (playlist ∈ s.acceptable_playlists))
  playlist_searches.foldl
    (processSeed dist cfg players parties playlist current_time playlist_searches) st

/-- `Matchmaker::run_tick`: refresh acceptable DCs, order seeds by wait time
descending (stable), process the playlists in their fixed order, and remove
matched searches from the queue.  Returns the final tick state and the
retained queue. -/
def run_tick {α : Type} [LinearOrder α] (dist : SearchObject → SearchObject → α)
    (cfg : MatchmakingConfig) (searches : List SearchObject)
    (players : List (Nat × Player)) (data_centers : List DataCenter)
    (parties : List (Nat × Party)) (current_time : Nat) :
    TickState × List SearchObject :=
  let refreshed := searches.map (refreshSearch cfg players data_centers current_time)
  let search_order := insertionSortBy
    (fun a b => decide (b.wait_time current_time cfg.tick_interval <
      a.wait_time current_time cfg.tick_interval)) refreshed
  let st := playlistOrder.foldl
    (processPlaylist dist cfg players parties current_time search_order)
    ⟨data_centers, [], []⟩
  (st, refreshed.filter (fun s => decide (s.id ∉ st.matched_search_ids)))

/-! ## Simulation state (`src/simulation.rs`, `src/lib.rs`) -/

/-- Per-skill-bucket statistics. -/
structure BucketStats where
  bucket_id : Nat
  player_count : Nat
  avg_search_time : ℚ
  avg_delta_ping : ℚ
  win_rate : ℚ
  avg_kd : ℚ
  matches_played : Nat
deriving DecidableEq

/-- Regional statistics. -/
structure RegionStats where
  player_count : Nat
  avg_search_time : ℚ
  avg_delta_ping : ℚ
  blowout_rate : ℚ
  active_matches : Nat
  cross_region_match_rate : ℚ
deriving DecidableEq

/-- Simulation statistics (`SimulationStats`), field for field. -/
structure SimulationStats where
  time_elapsed : ℚ
  ticks : Nat
  total_matches : Nat
  active_matches : Nat
  players_offline : Nat
  players_in_lobby : Nat
  players_searching : Nat
  players_in_match : Nat
  avg_search_time : ℚ
  search_time_p50 : ℚ
  search_time_p90 : ℚ
  search_time_p99 : ℚ
  search_time_samples : List ℚ
  avg_delta_ping : ℚ
  delta_ping_p50 : ℚ
  delta_ping_p90 : ℚ
  delta_ping_samples : List ℚ
  avg_skill_disparity : ℚ
  skill_disparity_samples : List ℚ
  avg_match_quality : ℚ
  blowout_rate : ℚ
  blowout_count : Nat
  blowout_severity_counts : List (BlowoutSeverity × Nat)
  per_playlist_blowout_rate : List (Playlist × ℚ)
  per_playlist_blowout_counts : List (Playlist × Nat)
  per_playlist_match_counts : List (Playlist × Nat)
  team_skill_difference_samples : List ℚ
  bucket_stats : List (Nat × BucketStats)
  party_count : Nat
  avg_party_size : ℚ
  party_match_count : Nat
  solo_match_count : Nat
  party_search_times : List ℚ
  solo_search_times : List ℚ
  skill_distribution_over_time : List (Nat × List (Nat × ℚ))
  skill_evolution_enabled : Bool
  total_skill_updates : Nat
  performance_samples : List ℚ
  per_bucket_continue_rate : List (Nat × ℚ)
  avg_computed_continue_prob : ℚ
  sample_logits : List ℚ
  sample_experiences : List (ℚ × ℚ × ℚ × ℚ × ℚ)
  current_retention_config : Option RetentionConfig
  avg_matches_per_session : ℚ
  session_length_distribution : List Nat
  active_sessions : Nat
  total_sessions_completed : Nat
  churn_rate : ℚ
  effective_population_size_over_time : List (Nat × Nat)
  per_bucket_return_rate : List (Nat × ℚ)
  total_return_attempts : Nat
  total_returns : Nat
  churn_threshold_ticks : Nat
  players_leaving_rate : ℚ
  recent_quits : List (Nat × Nat)
  population_change_rate : ℚ
  population_history : List (Nat × Nat)
  recent_population_samples : List Nat
  region_stats : List (Region × RegionStats)
  cross_region_match_samples : List Bool
deriving DecidableEq

/-- `SimulationStats::default()` (the derived `Default`): every numeric field
zero, every collection empty, every option `None`, every flag false — in
particular `churn_threshold_ticks = 0`. -/
def SimulationStats.default : SimulationStats where
  time_elapsed := 0
  ticks := 0
  total_matches := 0
  active_matches := 0
  players_offline := 0
  players_in_lobby := 0
  players_searching := 0
  players_in_match := 0
  avg_search_time := 0
  search_time_p50 := 0
  search_time_p90 := 0
  search_time_p99 := 0
  search_time_samples := []
  avg_delta_ping := 0
  delta_ping_p50 := 0
  delta_ping_p90 := 0
  delta_ping_samples := []
  avg_skill_disparity := 0
  skill_disparity_samples := []
  avg_match_quality := 0
  blowout_rate := 0
  blowout_count := 0
  blowout_severity_counts := []
  per_playlist_blowout_rate := []
  per_playlist_blowout_counts := []
  per_playlist_match_counts := []
  team_skill_difference_samples := []
  bucket_stats := []
  party_count := 0
  avg_party_size := 0
  party_match_count := 0
  solo_match_count := 0
  party_search_times := []
  solo_search_times := []
  skill_distribution_over_time := []
  skill_evolution_enabled := false
  total_skill_updates := 0
  performance_samples := []
  per_bucket_continue_rate := []
  avg_computed_continue_prob := 0
  sample_logits := []
  sample_experiences := []
  current_retention_config := none
  avg_matches_per_session := 0
  session_length_distribution := []
  active_sessions := 0
  total_sessions_completed := 0
  churn_rate := 0
  effective_population_size_over_time := []
  per_bucket_return_rate := []
  total_return_attempts := 0
  total_returns := 0
  churn_threshold_ticks := 0
  players_leaving_rate := 0
  recent_quits := []
  population_change_rate := 0
  population_history := []
  recent_population_samples := []
  region_stats := []
  cross_region_match_samples := []

/-- An active match (`Match`). -/
structure Match where
  id : Nat
  playlist : Playlist
  data_center_id : Nat
  teams : List (List Nat)
  start_time : Nat
  expected_duration : Nat
  team_skills : List ℚ
  quality_score : ℚ
  skill_disparity : ℚ
  avg_delta_ping : ℚ
  expected_score_differential : ℚ
  win_probability_imbalance : ℚ
  blowout_severity : Option BlowoutSeverity
  player_performances : List (Nat × ℚ)
deriving DecidableEq

/-- Main simulation state (`Simulation`), field for field. -/
structure Simulation where
  current_time : Nat
  players : List (Nat × Player)
  data_centers : List DataCenter
  searches : List SearchObject
  -- the source field is named `matches`; that word is reserved syntax in Lean
  matches_active : List (Nat × Match)
  config : MatchmakingConfig
  stats : SimulationStats
  next_player_id : Nat
  next_search_id : Nat
  next_match_id : Nat
  next_party_id : Nat
  parties : List (Nat × Party)
  rng_seed : Nat
  arrival_rate : ℚ
  matches_since_percentile_update : Nat
  total_matches_in_sessions : Nat
  session_continues : List (Nat × (Nat × Nat))
  return_attempts_by_bucket : List (Nat × Nat)
  returns_by_bucket : List (Nat × Nat)
  continue_prob_samples : List ℚ
  logit_samples : List ℚ
  experience_samples : List (ℚ × ℚ × ℚ × ℚ × ℚ)

/-- `Simulation::new`: empty state, default statistics with the churn
threshold overridden to 100 ticks, arrival rate 10. -/
def Simulation.new (config : MatchmakingConfig) (seed : Nat) : Simulation where
  current_time := 0
  players := []
  data_centers := []
  searches := []
  matches_active := []
  config := config
  stats := { SimulationStats.default with churn_threshold_ticks := 100 }
  next_player_id := 0
  next_search_id := 0
  next_match_id := 0
  next_party_id := 0
  parties := []
  rng_seed := seed
  arrival_rate := 10
  matches_since_percentile_update := 0
  total_matches_in_sessions := 0
  session_continues := []
  return_attempts_by_bucket := []
  returns_by_bucket := []
  continue_prob_samples := []
  logit_samples := []
  experience_samples := []

/-- `SimulationEngine::reset_stats`: `self.sim.stats = SimulationStats::default()`. -/
def Simulation.reset_stats (s : Simulation) : Simulation :=
  { s with stats := SimulationStats.default }

/-! ## The quit branch of `Simulation::process_match_completions`

The branch taken when the post-match Bernoulli decides that the player
quits (`simulation.rs`, the `else` arm of `rng.gen_bool(continue_prob)`).
Inputs: the player (with the just-finished match already pushed onto
`recent_experience`), the current tick, the statistics record, the per-bucket
continue/quit counters and the running `total_matches_in_sessions`. -/

/-- Extend a histogram with zeros until index `n` exists
(the source's `while len <= n push 0` loop). -/
def extendTo (l : List Nat) (n : Nat) : List Nat :=
  if l.length ≤ n then l ++ List.replicate (n + 1 - l.length) 0 else l

/-- Increment the histogram count at index `n`. -/
def incAt (l : List Nat) (n : Nat) : List Nat :=
  l.set n (l.getD n 0 + 1)

/-- The quit branch: bump the bucket's quit counter, record the quit tick,
preserve the session experience, clear the current window, go offline, and —
only when `matches_in_session > 0` — post the session length to the
histogram and clear the session counters. -/
def process_quit (p : Player) (current_time : Nat) (stats : SimulationStats)
    (session_continues : List (Nat × (Nat × Nat))) (total_matches_in_sessions : Nat) :
    Player × SimulationStats × List (Nat × (Nat × Nat)) × Nat :=
  let session_continues' :=
    match lookupAssoc session_continues p.skill_bucket with
    | some _ => updateAssoc session_continues p.skill_bucket (fun cq => (cq.1, cq.2 + 1))
    | none => session_continues ++ [(p.skill_bucket, (0, 1))]
  let stats1 := { stats with recent_quits := stats.recent_quits ++ [(current_time, 1)] }
  let p1 := { p with
    last_session_experience := p.recent_experience
    last_session_end_time := some current_time
    recent_experience := []
    state := PlayerState.Offline }
  if 0 < p.matches_in_session then
    let session_length := p.matches_in_session
    let stats2 := { stats1 with
      total_sessions_completed := stats1.total_sessions_completed + 1
      session_length_distribution :=
        incAt (extendTo stats1.session_length_distribution session_length) session_length }
    let p2 := { p1 with session_start_time := none, matches_in_session := 0 }
    (p2, stats2, session_continues', total_matches_in_sessions + session_length)
  else
    (p1, stats1, session_continues', total_matches_in_sessions)

/-! ## Party operations (`Simulation::create_party` / `join_party` /
`leave_party` / `disband_party`)

Each operation returns the (possibly) updated simulation together with the
source's `Result`; every early `return Err(..)` of the source happens before
any mutation, which the functional translation makes explicit by returning
the input state on those paths. -/

/-- The first validation failure of `create_party`'s member loop, if any. -/
def createPartyViolation (players : List (Nat × Player)) : List Nat → Option String
  | [] => none
  | pid :: rest =>
      match lookupAssoc players pid with
      | none => some ("Player " ++ toString pid ++ " does not exist")
      | some p =>
          if p.party_id.isSome then
            some ("Player " ++ toString pid ++ " is already in a party")
          else if ¬ (p.state = PlayerState.InLobby ∨ p.state = PlayerState.Offline) then
            some ("Player " ++ toString pid ++ " is not in a valid state to join party")
          else createPartyViolation players rest

/-- `Simulation::create_party`. -/
def Simulation.create_party (st : Simulation) (player_ids : List Nat) :
    Simulation × Except String Nat :=
  if player_ids = [] then
    (st, .error "Cannot create party with no players")
  else
    match createPartyViolation st.players player_ids with
    | some e => (st, .error e)
    | none =>
        if 6 < player_ids.length then
          (st, .error "Party size cannot exceed 6 players")
        else
          let party_id := st.next_party_id
          let party_players := player_ids.filterMap (lookupAssoc st.players)
          let party := Party.from_players party_id party_players
          let players' := player_ids.foldl
            (fun ps pid => updateAssoc ps pid (fun p => { p with party_id := some party_id }))
            st.players
          ({ st with
              next_party_id := st.next_party_id + 1
              players := players'
              parties := st.parties ++ [(party_id, party)] },
           .ok party_id)

/-- `Simulation::join_party`. -/
def Simulation.join_party (st : Simulation) (party_id : Nat) (player_id : Nat) :
    Simulation × Except String Unit :=
  match lookupAssoc st.parties party_id with
  | none => (st, .error ("Party " ++ toString party_id ++ " does not exist"))
  | some party =>
      if 6 ≤ party.player_ids.length then
        (st, .error "Party is at maximum capacity")
      else
        match lookupAssoc st.players player_id with
        | none => (st, .error ("Player " ++ toString player_id ++ " does not exist"))
        | some p =>
            if p.party_id.isSome then
              (st, .error ("Player " ++ toString player_id ++ " is already in a party"))
            else if ¬ (p.state = PlayerState.InLobby ∨ p.state = PlayerState.Offline) then
              (st, .error ("Player " ++ toString player_id ++
                " is not in a valid state to join party"))
            else
              let players' :=
                updateAssoc st.players player_id (fun q => { q with party_id := some party_id })
              let party1 := { party with player_ids := party.player_ids ++ [player_id] }
              let party2 := party1.update_aggregates players'
              ({ st with
                  players := players'
                  parties := updateAssoc st.parties party_id (fun _ => party2) },
               .ok ())

/-- `Simulation::leave_party`. -/
def Simulation.leave_party (st : Simulation) (party_id : Nat) (player_id : Nat) :
    Simulation × Except String Unit :=
  match lookupAssoc st.parties party_id with
  | none => (st, .error ("Party " ++ toString party_id ++ " does not exist"))
  | some party =>
      if player_id ∈ party.player_ids then
        let new_ids := party.player_ids.filter (fun i => decide (i ≠ player_id))
        let players' :=
          updateAssoc st.players player_id (fun q => { q with party_id := none })
        if new_ids = [] then
          ({ st with players := players', parties := removeAssoc st.parties party_id },
           .ok ())
        else
          let new_leader :=
            if party.leader_id = player_id then new_ids.headD 0 else party.leader_id
          let party1 := { party with player_ids := new_ids, leader_id := new_leader }
          let party2 := party1.update_aggregates players'
          ({ st with
              players := players'
              parties := updateAssoc st.parties party_id (fun _ => party2) },
           .ok ())
      else
        (st, .error ("Player " ++ toString player_id ++ " is not a member of party " ++
          toString party_id))

/-- `Simulation::disband_party`: remove the party, clear members' party ids,
return searching members to the lobby and drop their search objects. -/
def Simulation.disband_party (st : Simulation) (party_id : Nat) :
    Simulation × Except String Unit :=
  match lookupAssoc st.parties party_id with
  | none => (st, .error ("Party " ++ toString party_id ++ " does not exist"))
  | some party =>
      let st1 := { st with parties := removeAssoc st.parties party_id }
      let st2 := party.player_ids.foldl
        (fun (acc : Simulation) pid =>
          match lookupAssoc acc.players pid with
          | none => acc
          | some p =>
              if p.state = PlayerState.Searching then
                { acc with
                    players := updateAssoc acc.players pid
                      (fun q => { q with party_id := none, state := PlayerState.InLobby })
                    searches := acc.searches.filter (fun s => decide (pid ∉ s.player_ids)) }
              else
                { acc with
                    players := updateAssoc acc.players pid
                      (fun q => { q with party_id := none }) })
        st1
      (st2, .ok ())

/-! ## Soundness of the feasibility predicate -/

theorem foldl_min_le_init (l : List ℚ) : ∀ init : ℚ, l.foldl min init ≤ init := by
  induction l with
  | nil => intro init; simp
  | cons x xs ih =>
      intro init
      calc (x :: xs).foldl min init = xs.foldl min (min init x) := by simp
        _ ≤ min init x := ih (min init x)
        _ ≤ init := min_le_left _ _

theorem foldl_min_le_mem {l : List ℚ} {a : ℚ} (h : a ∈ l) :
    ∀ init : ℚ, l.foldl min init ≤ a := by
  induction l with
  | nil => cases h
  | cons x xs ih =>
      intro init
      rcases List.mem_cons.mp h with rfl | hmem
      · calc (a :: xs).foldl min init = xs.foldl min (min init a) := by simp
          _ ≤ min init a := foldl_min_le_init xs (min init a)
          _ ≤ a := min_le_right _ _
      · simpa using ih hmem (min init x)

theorem foldl_max_ge_init (l : List ℚ) : ∀ init : ℚ, init ≤ l.foldl max init := by
  induction l with
  | nil => intro init; simp
  | cons x xs ih =>
      intro init
      calc init ≤ max init x := le_max_left _ _
        _ ≤ xs.foldl max (max init x) := ih (max init x)
        _ = (x :: xs).foldl max init := by simp

theorem foldl_max_ge_mem {l : List ℚ} {a : ℚ} (h : a ∈ l) :
    ∀ init : ℚ, a ≤ l.foldl max init := by
  induction l with
  | nil => cases h
  | cons x xs ih =>
      intro init
      rcases List.mem_cons.mp h with rfl | hmem
      · calc a ≤ max init a := le_max_right _ _
          _ ≤ xs.foldl max (max init a) := foldl_max_ge_init xs (max init a)
          _ = (a :: xs).foldl max init := by simp
      · simpa using ih hmem (max init x)

theorem mem_foldl_filter {d : Nat} :
    ∀ (ls : List (List Nat)) (acc : List Nat),
      d ∈ ls.foldl (fun acc l => acc.filter (fun x => decide (x ∈ l))) acc →
      d ∈ acc ∧ ∀ l ∈ ls, d ∈ l := by
  intro ls
  induction ls with
  | nil => intro acc h; simpa using h
  | cons m ms ih =>
      intro acc h
      simp only [List.foldl_cons] at h
      obtain ⟨hacc, hrest⟩ := ih (acc.filter (fun x => decide (x ∈ m))) h
      rw [List.mem_filter] at hacc
      refine ⟨hacc.1, ?_⟩
      intro l hl
      rcases List.mem_cons.mp hl with rfl | hl'
      · simpa using hacc.2
      · exact hrest l hl'

theorem intersectAll_mem {L : List (List Nat)} {d : Nat} (h : d ∈ intersectAll L) :
    ∀ l ∈ L, d ∈ l := by
  match L with
  | [] => cases h
  | l :: ls =>
      obtain ⟨hl, hls⟩ := mem_foldl_filter ls l h
      intro m hm
      rcases List.mem_cons.mp hm with rfl | hm'
      · exact hl
      · exact hls m hm'

/-- Everything `check_feasibility` guarantees when it returns a result:
all failure guards passed and the chosen data center is a common acceptable
one with an available server.  (This is the feasibility half of claim C1 and
the availability half of claim C2.) -/
theorem check_feasibility_sound
    {cfg : MatchmakingConfig} {searches : List SearchObject} {playlist : Playlist}
    {current_time : Nat} {data_centers : List DataCenter} {players : List (Nat × Player)}
    {r : FeasibilityResult}
    (h : check_feasibility cfg searches playlist current_time data_centers players = some r) :
    (∀ s ∈ searches, playlist ∈ s.acceptable_playlists) ∧
    (searches.map SearchObject.size).sum ≤ playlist.required_players ∧
    (∀ s ∈ searches,
      s.avg_skill_percentile -
          cfg.skill_similarity_backoff (s.wait_time current_time cfg.tick_interval) ≤
        lobbyPiMin searches ∧
      lobbyPiMax searches ≤ s.avg_skill_percentile +
          cfg.skill_similarity_backoff (s.wait_time current_time cfg.tick_interval)) ∧
    (∀ s ∈ searches, lobbyPiMax searches - lobbyPiMin searches ≤
      cfg.skill_disparity_backoff (s.wait_time current_time cfg.tick_interval)) ∧
    r.skill_disparity = lobbyPiMax searches - lobbyPiMin searches ∧
    (∀ s ∈ searches, r.data_center_id ∈ s.acceptable_dcs) ∧
    (∃ dc, findDc data_centers r.data_center_id = some dc ∧
      0 < dc.available_servers playlist) := by
  simp only [check_feasibility] at h
  split_ifs at h with g1 g2 g3 g4 g5
  rw [Option.map_eq_some'] at h
  obtain ⟨dcId, hfind, hr⟩ := h
  have hpred := List.find?_some hfind
  have hmem := List.mem_of_find?_eq_some hfind
  have hcommon : dcId ∈ intersectAll (searches.map (·.acceptable_dcs)) := by
    rcases List.mem_append.mp hmem with hmem' | hother
    · rcases List.mem_append.mp hmem' with hpri | hadj
      · exact (List.mem_filter.mp hpri).1
      · exact (List.mem_filter.mp hadj).1
    · exact (List.mem_filter.mp hother).1
  have hacc : ∀ s ∈ searches, dcId ∈ s.acceptable_dcs := by
    intro s hs
    exact intersectAll_mem hcommon s.acceptable_dcs (List.mem_map_of_mem _ hs)
  have havail : ∃ dc, findDc data_centers dcId = some dc ∧
      0 < dc.available_servers playlist := by
    cases hdc : findDc data_centers dcId with
    | none => rw [hdc] at hpred; cases hpred
    | some dc =>
        rw [hdc] at hpred
        exact ⟨dc, rfl, of_decide_eq_true hpred⟩
  have hspread : ∀ s ∈ searches, lobbyPiMax searches - lobbyPiMin searches ≤
      cfg.skill_disparity_backoff (s.wait_time current_time cfg.tick_interval) := by
    intro s hs
    have hb : cfg.skill_disparity_backoff (s.wait_time current_time cfg.tick_interval) ∈
        searches.map (fun s =>
          cfg.skill_disparity_backoff (s.wait_time current_time cfg.tick_interval)) :=
      List.mem_map_of_mem _ hs
    exact le_trans (not_lt.mp g4) (foldl_min_le_mem hb f64Max)
  subst hr
  exact ⟨g1, not_lt.mp g2, g3, hspread, rfl, hacc, havail⟩

/-! ## Claim C1: feasibility soundness of every committed match -/

/-- The data-center list states reachable from the tick's initial state via
busy-counter reservations: exactly how `run_tick` mutates `data_centers`
between commits. -/
inductive DcsEvolved : List DataCenter → List DataCenter → Prop
  | refl (dcs : List DataCenter) : DcsEvolved dcs dcs
  | step (dcs dcs' : List DataCenter) (dcId : Nat) (playlist : Playlist) :
      DcsEvolved dcs dcs' → DcsEvolved dcs (reserveServer dcs' dcId playlist)

/-- What held, at the moment of commit, for a match emitted by the per-tick
assembly: there is a lobby of (refreshed) search objects from the pool and a
data-center state reached from the tick's initial one by the preceding
reservations, such that every clause of the feasibility predicate holds and
the lobby exactly fills the playlist. -/
def CommittedOk (cfg : MatchmakingConfig) (players : List (Nat × Player))
    (current_time : Nat) (pool : List SearchObject) (dcs_init : List DataCenter)
    (r : MatchResult) : Prop :=
  ∃ lobby dcs_commit,
    lobby ≠ [] ∧
    (∀ s ∈ lobby, s ∈ pool) ∧
    DcsEvolved dcs_init dcs_commit ∧
    r.player_ids = joinList (lobby.map (·.player_ids)) ∧
    (lobby.map SearchObject.size).sum = r.playlist.required_players ∧
    (∀ s ∈ lobby, r.playlist ∈ s.acceptable_playlists) ∧
    (∀ s ∈ lobby,
      s.avg_skill_percentile -
          cfg.skill_similarity_backoff (s.wait_time current_time cfg.tick_interval) ≤
        lobbyPiMin lobby ∧
      lobbyPiMax lobby ≤ s.avg_skill_percentile +
          cfg.skill_similarity_backoff (s.wait_time current_time cfg.tick_interval)) ∧
    (∀ s ∈ lobby, lobbyPiMax lobby - lobbyPiMin lobby ≤
      cfg.skill_disparity_backoff (s.wait_time current_time cfg.tick_interval)) ∧
    (∀ s ∈ lobby, r.data_center_id ∈ s.acceptable_dcs) ∧
    (∃ dc, findDc dcs_commit r.data_center_id = some dc ∧
      0 < dc.available_servers r.playlist)

/-- Invariant carried through a matchmaking tick. -/
def TickInv (cfg : MatchmakingConfig) (players : List (Nat × Player))
    (current_time : Nat) (pool : List SearchObject) (dcs_init : List DataCenter)
    (st : TickState) : Prop :=
  DcsEvolved dcs_init st.data_centers ∧
  ∀ r ∈ st.results, CommittedOk cfg players current_time pool dcs_init r

theorem extendLobby_spec (cfg : MatchmakingConfig) (players : List (Nat × Player))
    (playlist : Playlist) (current_time : Nat) (dcs : List DataCenter)
    (seed : SearchObject) (cands : List SearchObject) (pool : List SearchObject)
    (hseed : seed ∈ pool) (hcands : ∀ c ∈ cands, c ∈ pool) :
    (extendLobby cfg players playlist current_time dcs seed cands).1 ≠ [] ∧
    (∀ s ∈ (extendLobby cfg players playlist current_time dcs seed cands).1, s ∈ pool) ∧
    ((extendLobby cfg players playlist current_time dcs seed cands).1.map
        SearchObject.size).sum =
      (extendLobby cfg players playlist current_time dcs seed cands).2 := by
  refine foldl_preserve
    (P := fun e : List SearchObject × Nat =>
      e.1 ≠ [] ∧ (∀ s ∈ e.1, s ∈ pool) ∧ (e.1.map SearchObject.size).sum = e.2)
    _ cands ([seed], seed.size) ⟨by simp, by simpa using hseed, by simp⟩ ?_
  intro b c hc hb
  dsimp only
  split_ifs with h1 h2 h3
  · exact hb
  · exact hb
  · refine ⟨by simp, ?_, ?_⟩
    · intro s hs
      rcases List.mem_append.mp hs with h | h
      · exact hb.2.1 s h
      · rw [List.mem_singleton] at h; rw [h]; exact hcands c hc
    · simp [hb.2.2]
  · exact hb

theorem commitLobby_preserves (cfg : MatchmakingConfig) (players : List (Nat × Player))
    (parties : List (Nat × Party)) (playlist : Playlist) (current_time : Nat)
    (pool : List SearchObject) (dcs_init : List DataCenter) (st : TickState)
    (lobby : List SearchObject) (lobby_size : Nat)
    (hlob_ne : lobby ≠ []) (hlob_pool : ∀ s ∈ lobby, s ∈ pool)
    (hlob_sum : (lobby.map SearchObject.size).sum = lobby_size)
    (hst : TickInv cfg players current_time pool dcs_init st) :
    TickInv cfg players current_time pool dcs_init
      (commitLobby cfg players parties playlist current_time st lobby lobby_size) := by
  unfold commitLobby
  split_ifs with hsize
  · cases hfeas : check_feasibility cfg lobby playlist current_time st.data_centers players with
    | none => exact hst
    | some feas =>
        obtain ⟨hdcs, hres⟩ := hst
        have sound := check_feasibility_sound hfeas
        constructor
        · exact DcsEvolved.step _ _ _ _ hdcs
        · intro r hr
          rcases List.mem_append.mp hr with hold | hnew
          · exact hres r hold
          · rw [List.mem_singleton] at hnew
            subst hnew
            refine ⟨lobby, st.data_centers, hlob_ne, hlob_pool, hdcs, rfl, ?_, ?_, ?_, ?_, ?_, ?_⟩
            · simpa using hlob_sum.trans hsize
            · simpa using sound.1
            · simpa using sound.2.2.1
            · simpa using sound.2.2.2.1
            · simpa using sound.2.2.2.2.2.1
            · simpa using sound.2.2.2.2.2.2
  · exact hst

theorem top_subset_pool {α : Type} [LinearOrder α] (dist : SearchObject → SearchObject → α)
    (pls pool : List SearchObject) (hpls : ∀ s ∈ pls, s ∈ pool) (seed : SearchObject)
    (matched : List Nat) (k : Nat) :
    ∀ c ∈ ((insertionSortBy (fun a b => decide (a.2 < b.2))
        ((pls.filter (fun c => decide (c.id ≠ seed.id) && decide (c.id ∉ matched))).map
          (fun c => (c, dist seed c)))).take k).map Prod.fst, c ∈ pool := by
  intro c hc
  obtain ⟨pr, hpr, hfst⟩ := List.mem_map.mp hc
  have hpr2 : pr ∈ insertionSortBy (fun a b => decide (a.2 < b.2))
      ((pls.filter (fun c => decide (c.id ≠ seed.id) && decide (c.id ∉ matched))).map
        (fun c => (c, dist seed c))) := List.take_subset _ _ hpr
  have hpr3 := (mem_insertionSortBy _ _ _).mp hpr2
  obtain ⟨c', hc', heq⟩ := List.mem_map.mp hpr3
  have hc'' : c' ∈ pls := (List.mem_filter.mp hc').1
  have : c = c' := by rw [← hfst, ← heq]
  rw [this]
  exact hpls c' hc''

theorem processSeed_preserves {α : Type} [LinearOrder α]
    (dist : SearchObject → SearchObject → α) (cfg : MatchmakingConfig)
    (players : List (Nat × Player)) (parties : List (Nat × Party)) (playlist : Playlist)
    (current_time : Nat) (pls pool : List SearchObject) (dcs_init : List DataCenter)
    (hpls : ∀ s ∈ pls, s ∈ pool) (st : TickState) (seed : SearchObject) (hseed : seed ∈ pls)
    (hst : TickInv cfg players current_time pool dcs_init st) :
    TickInv cfg players current_time pool dcs_init
      (processSeed dist cfg players parties playlist current_time pls st seed) := by
  unfold processSeed
  split_ifs with hmatched
  · exact hst
  · have hseedpool : seed ∈ pool := hpls seed hseed
    have htop := top_subset_pool dist pls pool hpls seed st.matched_search_ids
      cfg.top_k_candidates
    have hext := extendLobby_spec cfg players playlist current_time st.data_centers seed
      _ pool hseedpool htop
    exact commitLobby_preserves cfg players parties playlist current_time pool dcs_init st
      _ _ hext.1 hext.2.1 hext.2.2 hst

theorem processPlaylist_preserves {α : Type} [LinearOrder α]
    (dist : SearchObject → SearchObject → α) (cfg : MatchmakingConfig)
    (players : List (Nat × Player)) (parties : List (Nat × Party)) (current_time : Nat)
    (search_order pool : List SearchObject) (dcs_init : List DataCenter)
    (horder : ∀ s ∈ search_order, s ∈ pool) (st : TickState) (playlist : Playlist)
    (hst : TickInv cfg players current_time pool dcs_init st) :
    TickInv cfg players current_time pool dcs_init
      (processPlaylist dist cfg players parties current_time search_order st playlist) := by
  unfold processPlaylist
  refine foldl_preserve (P := TickInv cfg players current_time pool dcs_init) _ _ st hst ?_
  intro b s hs hb
  have hsub : ∀ t ∈ search_order.filter (fun s =>
      decide (s.id ∉ st.matched_search_ids) && decide (playlist ∈ s.acceptable_playlists)),
      t ∈ pool := by
    intro t ht
    exact horder t (List.mem_filter.mp ht).1
  exact processSeed_preserves dist cfg players parties playlist current_time _ pool dcs_init
    hsub b s hs hb

/-- Claim C1 — feasibility soundness of the per-tick assembly: for every
match committed by `run_tick`, at the moment of commit the full feasibility
predicate held for the committed lobby under the committed playlist — every
member accepted the playlist, the lobby exactly filled
`required_players(playlist)`, the skill-containment and skill-spread checks
passed for every member at its current wait time, the chosen data center was
in the (non-empty) intersection of the members' `acceptable_dcs` and had
`available_servers(playlist) > 0` at commit time. -/
theorem feasibility_soundness_of_committed_matches {α : Type} [LinearOrder α]
    (dist : SearchObject → SearchObject → α) (cfg : MatchmakingConfig)
    (searches : List SearchObject) (players : List (Nat × Player))
    (data_centers : List DataCenter) (parties : List (Nat × Party)) (current_time : Nat)
    (r : MatchResult)
    (hr : r ∈ (run_tick dist cfg searches players data_centers parties
      current_time).1.results) :
    CommittedOk cfg players current_time
      (searches.map (refreshSearch cfg players data_centers current_time))
      data_centers r := by
  have hinv : TickInv cfg players current_time
      (searches.map (refreshSearch cfg players data_centers current_time)) data_centers
      (playlistOrder.foldl
        (processPlaylist dist cfg players parties current_time
          (insertionSortBy (fun a b =>
            decide (b.wait_time current_time cfg.tick_interval <
              a.wait_time current_time cfg.tick_interval))
            (searches.map (refreshSearch cfg players data_centers current_time))))
        ⟨data_centers, [], []⟩) := by
    refine foldl_preserve
      (P := TickInv cfg players current_time
        (searches.map (refreshSearch cfg players data_centers current_time)) data_centers)
      _ _ _ ⟨DcsEvolved.refl _, by intro r hr; cases hr⟩ ?_
    intro b pl _ hb
    refine processPlaylist_preserves dist cfg players parties current_time _ _ data_centers
      ?_ b pl hb
    intro s hs
    exact (mem_insertionSortBy _ _ _).mp hs
  exact hinv.2 r hr

/-! ## Concrete instances used by the witnesses -/

/- The Batteries rational-number operations are `@[irreducible]`; witnesses
evaluate the embedded definitions on concrete inputs, which needs them to
unfold. -/
attribute [local semireducible] Rat.add Rat.mul Rat.sub Rat.inv Rat.ofScientific

set_option maxRecDepth 10000

/-- A data center as installed by `DataCenter::new` (default capacities). -/
def dcEx : DataCenter :=
  { id := 0, name := "Test", location := ⟨0, 0⟩, region := .Other
    server_capacity := [(.TeamDeathmatch, 200), (.SearchAndDestroy, 200), (.Domination, 200),
      (.GroundWar, 50), (.FreeForAll, 200)]
    busy_servers := [(.TeamDeathmatch, 0), (.SearchAndDestroy, 0), (.Domination, 0),
      (.GroundWar, 0), (.FreeForAll, 0)] }

/-- A solo searching player with one known data center. -/
def playerEx (i : Nat) : Player :=
  { id := i, location := ⟨0, 0⟩, region := .Other, platform := .PC,
    input_device := .Controller, voice_chat_enabled := true, skill := 0,
    skill_percentile := (1 / 2 : ℚ), skill_bucket := 5, state := .Searching,
    current_match := none, party_id := none, preferred_playlists := [.TeamDeathmatch],
    dc_pings := [(0, 50)], best_dc := some 0, best_ping := 50,
    search_start_time := some 0, matches_played := 0, total_kills := 0, total_deaths := 0,
    wins := 0, losses := 0, recent_delta_pings := [], recent_search_times := [],
    recent_blowouts := [], recent_performance := [], continuation_prob := (17 / 20 : ℚ),
    recent_experience := [], session_start_time := none, matches_in_session := 0,
    last_session_experience := [], last_session_end_time := none }

def playersEx : List (Nat × Player) := (List.range 12).map (fun i => (i, playerEx i))

/-- A full 12-player search object for Team Deathmatch. -/
def searchEx : SearchObject :=
  { id := 1, player_ids := List.range 12, avg_skill_percentile := (1 / 2 : ℚ),
    skill_disparity := 0, avg_location := ⟨0, 0⟩, platforms := [(.PC, 12)],
    input_devices := [(.Controller, 12)], acceptable_playlists := [.TeamDeathmatch],
    search_start_time := 0, acceptable_dcs := [0] }

/-- The match `run_tick` commits for the scenario above. -/
def rEx : MatchResult :=
  { player_ids := List.range 12, teams := [List.range 12, []], playlist := .TeamDeathmatch
    data_center_id := 0, quality_score := 4 / 5, skill_disparity := 0, avg_delta_ping := 0
    search_times := [0], is_cross_region := false }

/-- Witness for C1: the soundness theorem applied to the concrete committed
match of a 12-player Team Deathmatch scenario. -/
theorem feasibility_soundness_witness :
    CommittedOk MatchmakingConfig.default playersEx 0
      ([searchEx].map (refreshSearch MatchmakingConfig.default playersEx [dcEx] 0))
      [dcEx] rEx :=
  feasibility_soundness_of_committed_matches (fun _ _ => (0 : ℚ)) MatchmakingConfig.default
    [searchEx] playersEx [dcEx] [] 0 rEx (by decide)

/-! ## Claim C2: server-capacity invariant -/

/-- `0 ≤ busy ≤ capacity` for every data center and playlist (the lower bound
is inherent in the `Nat` counters, as in the source's `usize`). -/
abbrev CapInv (dcs : List DataCenter) : Prop :=
  ∀ dc ∈ dcs, ∀ playlist : Playlist,
    (lookupAssoc dc.busy_servers playlist).getD 0 ≤
      (lookupAssoc dc.server_capacity playlist).getD 0

theorem capInv_bumpBusy {dc : DataCenter} {playlist : Playlist}
    (h : ∀ q : Playlist, (lookupAssoc dc.busy_servers q).getD 0 ≤
      (lookupAssoc dc.server_capacity q).getD 0)
    (havail : 0 < dc.available_servers playlist) :
    ∀ q : Playlist, (lookupAssoc (dc.bumpBusy playlist).busy_servers q).getD 0 ≤
      (lookupAssoc (dc.bumpBusy playlist).server_capacity q).getD 0 := by
  intro q
  unfold DataCenter.bumpBusy
  cases hb : lookupAssoc dc.busy_servers playlist with
  | none => exact h q
  | some b =>
      have hcap : (lookupAssoc dc.busy_servers playlist).getD 0 <
          (lookupAssoc dc.server_capacity playlist).getD 0 := by
        have := havail
        unfold DataCenter.available_servers at this
        omega
      by_cases hq : q = playlist
      · subst hq
        simp only [lookupAssoc_updateAssoc_self, hb, Option.map_some', Option.getD_some]
        rw [hb] at hcap
        simpa using hcap
      · simp only [lookupAssoc_updateAssoc_other playlist q _ hq]
        exact h q

theorem capInv_releaseBusy {dc : DataCenter} {playlist : Playlist}
    (h : ∀ q : Playlist, (lookupAssoc dc.busy_servers q).getD 0 ≤
      (lookupAssoc dc.server_capacity q).getD 0) :
    ∀ q : Playlist, (lookupAssoc (dc.releaseBusy playlist).busy_servers q).getD 0 ≤
      (lookupAssoc (dc.releaseBusy playlist).server_capacity q).getD 0 := by
  intro q
  unfold DataCenter.releaseBusy
  cases hb : lookupAssoc dc.busy_servers playlist with
  | none => exact h q
  | some b =>
      by_cases hq : q = playlist
      · subst hq
        simp only [lookupAssoc_updateAssoc_self, hb, Option.map_some', Option.getD_some]
        have := h q
        rw [hb] at this
        simp only [Option.getD_some] at this
        omega
      · simp only [lookupAssoc_updateAssoc_other playlist q _ hq]
        exact h q

theorem capInv_reserveServer {dcs : List DataCenter} (dcId : Nat) (playlist : Playlist)
    (h : CapInv dcs)
    (havail : ∀ dc, findDc dcs dcId = some dc → 0 < dc.available_servers playlist) :
    CapInv (reserveServer dcs dcId playlist) := by
  induction dcs with
  | nil => intro dc hdc; cases hdc
  | cons dc0 rest ih =>
      unfold reserveServer modifyDc
      by_cases hid : dc0.id = dcId
      · rw [if_pos hid]
        intro dc hdc q
        rcases List.mem_cons.mp hdc with rfl | hmem
        · have hfind : findDc (dc0 :: rest) dcId = some dc0 := by
            unfold findDc
            simp [List.find?, hid]
          exact capInv_bumpBusy (fun q' => h dc0 (by simp) q') (havail dc0 hfind) q
        · exact h dc (by simp [hmem]) q
      · rw [if_neg hid]
        intro dc hdc q
        rcases List.mem_cons.mp hdc with rfl | hmem
        · exact h dc (by simp) q
        · have hrest : CapInv (reserveServer rest dcId playlist) := by
            refine ih (fun dc' hdc' q' => h dc' (by simp [hdc']) q') ?_
            intro dc' hfind'
            refine havail dc' ?_
            unfold findDc at hfind' ⊢
            simpa [List.find?, hid] using hfind'
          exact hrest dc hmem q

theorem capInv_releaseServer (dcs : List DataCenter) (dcId : Nat) (playlist : Playlist)
    (h : CapInv dcs) : CapInv (releaseServer dcs dcId playlist) := by
  induction dcs with
  | nil => intro dc hdc; cases hdc
  | cons dc0 rest ih =>
      unfold releaseServer modifyDc
      by_cases hid : dc0.id = dcId
      · rw [if_pos hid]
        intro dc hdc q
        rcases List.mem_cons.mp hdc with rfl | hmem
        · exact capInv_releaseBusy (fun q' => h dc0 (by simp) q') q
        · exact h dc (by simp [hmem]) q
      · rw [if_neg hid]
        intro dc hdc q
        rcases List.mem_cons.mp hdc with rfl | hmem
        · exact h dc (by simp) q
        · exact ih (fun dc' hdc' q' => h dc' (by simp [hdc']) q') dc hmem q

theorem commitLobby_capInv (cfg : MatchmakingConfig) (players : List (Nat × Player))
    (parties : List (Nat × Party)) (playlist : Playlist) (current_time : Nat)
    (st : TickState) (lobby : List SearchObject) (lobby_size : Nat)
    (h : CapInv st.data_centers) :
    CapInv (commitLobby cfg players parties playlist current_time st lobby
      lobby_size).data_centers := by
  unfold commitLobby
  split_ifs with hsize
  · cases hfeas : check_feasibility cfg lobby playlist current_time st.data_centers players with
    | none => exact h
    | some feas =>
        have sound := check_feasibility_sound hfeas
        obtain ⟨dc0, hdc0, hav⟩ := sound.2.2.2.2.2.2
        refine capInv_reserveServer _ _ h ?_
        intro dc hdc
        rw [hdc0] at hdc
        cases hdc
        exact hav
  · exact h

theorem processSeed_capInv {α : Type} [LinearOrder α]
    (dist : SearchObject → SearchObject → α) (cfg : MatchmakingConfig)
    (players : List (Nat × Player)) (parties : List (Nat × Party)) (playlist : Playlist)
    (current_time : Nat) (pls : List SearchObject) (st : TickState) (seed : SearchObject)
    (h : CapInv st.data_centers) :
    CapInv (processSeed dist cfg players parties playlist current_time pls st
      seed).data_centers := by
  unfold processSeed
  split_ifs with hmatched
  · exact h
  · exact commitLobby_capInv cfg players parties playlist current_time st _ _ h

theorem processPlaylist_capInv {α : Type} [LinearOrder α]
    (dist : SearchObject → SearchObject → α) (cfg : MatchmakingConfig)
    (players : List (Nat × Player)) (parties : List (Nat × Party)) (current_time : Nat)
    (search_order : List SearchObject) (st : TickState) (playlist : Playlist)
    (h : CapInv st.data_centers) :
    CapInv (processPlaylist dist cfg players parties current_time search_order st
      playlist).data_centers := by
  unfold processPlaylist
  refine foldl_preserve (P := fun st' : TickState => CapInv st'.data_centers) _ _ st h ?_
  intro b s _ hb
  exact processSeed_capInv dist cfg players parties playlist current_time _ b s hb

/-- Claim C2 — the server-capacity invariant, in four parts: (1) a successful
feasibility check always selects a data center with a strictly available
server; (2) a matchmaking tick preserves `0 ≤ busy ≤ capacity`; (3) the
match-completion release preserves it too (the decrement saturates at zero);
(4) a commit increments the chosen counter by exactly one and a completion
decrements it by one, saturating at zero. -/
theorem server_capacity_invariant :
    (∀ (cfg : MatchmakingConfig) (searches : List SearchObject) (playlist : Playlist)
        (current_time : Nat) (dcs : List DataCenter) (players : List (Nat × Player))
        (r : FeasibilityResult),
      check_feasibility cfg searches playlist current_time dcs players = some r →
      ∃ dc, findDc dcs r.data_center_id = some dc ∧ 0 < dc.available_servers playlist) ∧
    (∀ (α : Type) (inst : LinearOrder α) (dist : SearchObject → SearchObject → α)
        (cfg : MatchmakingConfig) (searches : List SearchObject)
        (players : List (Nat × Player)) (dcs : List DataCenter)
        (parties : List (Nat × Party)) (current_time : Nat),
      CapInv dcs →
      CapInv (@run_tick α inst dist cfg searches players dcs parties
        current_time).1.data_centers) ∧
    (∀ (dcs : List DataCenter) (dcId : Nat) (playlist : Playlist),
      CapInv dcs → CapInv (releaseServer dcs dcId playlist)) ∧
    (∀ (dc : DataCenter) (playlist : Playlist) (b : Nat),
      lookupAssoc dc.busy_servers playlist = some b →
      lookupAssoc (dc.bumpBusy playlist).busy_servers playlist = some (b + 1) ∧
      lookupAssoc (dc.releaseBusy playlist).busy_servers playlist = some (b - 1)) := by
  refine ⟨?_, ?_, ?_, ?_⟩
  · intro cfg searches playlist current_time dcs players r h
    exact (check_feasibility_sound h).2.2.2.2.2.2
  · intro α inst dist cfg searches players dcs parties current_time h
    unfold run_tick
    refine foldl_preserve (P := fun st : TickState => CapInv st.data_centers) _ _ _ h ?_
    intro b pl _ hb
    exact processPlaylist_capInv dist cfg players parties current_time _ b pl hb
  · exact capInv_releaseServer
  · intro dc playlist b h
    constructor
    · unfold DataCenter.bumpBusy
      rw [h]
      simp [lookupAssoc_updateAssoc_self, h]
    · unfold DataCenter.releaseBusy
      rw [h]
      simp [lookupAssoc_updateAssoc_self, h]

/-- Witness for C2: the invariant parts applied to the concrete scenario
(the availability part at the concrete feasibility check, the preservation
parts at a tick that commits a match and at a release). -/
theorem server_capacity_invariant_witness :
    (∃ dc, findDc [dcEx] (0 : Nat) = some dc ∧ 0 < dc.available_servers .TeamDeathmatch) ∧
    CapInv (run_tick (fun _ _ => (0 : ℚ)) MatchmakingConfig.default [searchEx] playersEx
      [dcEx] [] 0).1.data_centers ∧
    CapInv (releaseServer [dcEx] 0 .TeamDeathmatch) := by
  refine ⟨?_, ?_, ?_⟩
  · have h := server_capacity_invariant.1 MatchmakingConfig.default
      [refreshSearch MatchmakingConfig.default playersEx [dcEx] 0 searchEx]
      .TeamDeathmatch 0 [dcEx] playersEx ⟨0, 0⟩ (by decide)
    simpa using h
  · exact server_capacity_invariant.2.1 ℚ inferInstance (fun _ _ => (0 : ℚ))
      MatchmakingConfig.default [searchEx] playersEx [dcEx] [] 0 (by decide)
  · exact server_capacity_invariant.2.2.1 [dcEx] 0 .TeamDeathmatch (by decide)

/-! ## Claim C3: party integrity in team balancing -/

/-- Every party entry's member list lands wholly inside one team of the
assignment. -/
def TeamRespect (entries : List PartyEntry) (teams : List (List Nat)) : Prop :=
  ∀ e ∈ entries, ∃ t ∈ teams, ∀ m ∈ e.member_ids, m ∈ t

theorem lookupAssoc_insertGroup_self (k : Option Nat) (pid : Nat) :
    ∀ acc, lookupAssoc (insertGroup acc k pid) k =
      some ((lookupAssoc acc k).getD [] ++ [pid]) := by
  intro acc
  induction acc with
  | nil => simp [insertGroup, lookupAssoc]
  | cons e rest ih =>
      obtain ⟨k', l⟩ := e
      by_cases h : k' = k
      · subst h; simp [insertGroup, lookupAssoc]
      · simp [insertGroup, lookupAssoc, h, ih]

theorem lookupAssoc_insertGroup_other (k k' : Option Nat) (pid : Nat) (h : k' ≠ k) :
    ∀ acc, lookupAssoc (insertGroup acc k pid) k' = lookupAssoc acc k' := by
  intro acc
  induction acc with
  | nil => simp [insertGroup, lookupAssoc, Ne.symm h]
  | cons e rest ih =>
      obtain ⟨k0, l⟩ := e
      by_cases h0 : k0 = k
      · subst h0; simp [insertGroup, lookupAssoc, Ne.symm h]
      · simp only [insertGroup, if_neg h0, lookupAssoc]
        by_cases h1 : k0 = k'
        · simp [h1]
        · simp [h1, ih]

theorem lookupAssoc_mem {κ β : Type} [DecidableEq κ] {k : κ} {v : β} :
    ∀ {l : List (κ × β)}, lookupAssoc l k = some v → (k, v) ∈ l := by
  intro l
  induction l with
  | nil => intro h; cases h
  | cons e rest ih =>
      obtain ⟨k0, v0⟩ := e
      intro h
      by_cases h0 : k0 = k
      · subst h0
        simp only [lookupAssoc, if_pos rfl] at h
        cases h
        simp
      · simp only [lookupAssoc, if_neg h0] at h
        simp [ih h]

/-- The grouping fold of `balance_teams` over a list of player ids. -/
def groupFold (players : List (Nat × Player)) (ids : List Nat)
    (acc : List (Option Nat × List Nat)) : List (Option Nat × List Nat) :=
  ids.foldl
    (fun acc pid => insertGroup acc ((lookupAssoc players pid).bind Player.party_id) pid) acc

theorem mem_groupFold_mono (players : List (Nat × Player)) {x : Nat} {k : Option Nat} :
    ∀ (ids : List Nat) (acc : List (Option Nat × List Nat)),
      x ∈ (lookupAssoc acc k).getD [] →
      x ∈ (lookupAssoc (groupFold players ids acc) k).getD [] := by
  intro ids
  induction ids with
  | nil => intro acc h; simpa [groupFold] using h
  | cons y ys ih =>
      intro acc h
      simp only [groupFold, List.foldl_cons]
      refine ih _ ?_
      by_cases hk : (lookupAssoc players y).bind Player.party_id = k
      · rw [hk, lookupAssoc_insertGroup_self]
        simp only [Option.getD_some]
        exact List.mem_append.mpr (Or.inl h)
      · rw [lookupAssoc_insertGroup_other _ _ _ (fun h' => hk h'.symm)]
        exact h

theorem mem_groupFold (players : List (Nat × Player)) {x : Nat} {k : Option Nat} :
    ∀ (ids : List Nat) (acc : List (Option Nat × List Nat)), x ∈ ids →
      (lookupAssoc players x).bind Player.party_id = k →
      x ∈ (lookupAssoc (groupFold players ids acc) k).getD [] := by
  intro ids
  induction ids with
  | nil => intro acc h; cases h
  | cons y ys ih =>
      intro acc hmem hk
      rcases List.mem_cons.mp hmem with rfl | hmem'
      · simp only [groupFold, List.foldl_cons]
        refine mem_groupFold_mono players ys _ ?_
        rw [hk, lookupAssoc_insertGroup_self]
        simp
      · simp only [groupFold, List.foldl_cons]
        exact ih _ hmem' hk

theorem joinList_subset {α : Type} {l : List α} {L : List (List α)} (h : l ∈ L) :
    ∀ x ∈ l, x ∈ joinList L := by
  induction L with
  | nil => cases h
  | cons m ms ih =>
      intro x hx
      rcases List.mem_cons.mp h with rfl | h'
      · exact List.mem_append.mpr (Or.inl hx)
      · exact List.mem_append.mpr (Or.inr (ih h' x hx))

theorem mem_enumFrom_of_mem {α : Type} {x : α} :
    ∀ (l : List α) (n : Nat), x ∈ l → ∃ i, (i, x) ∈ l.enumFrom n := by
  intro l
  induction l with
  | nil => intro n h; cases h
  | cons y ys ih =>
      intro n h
      rcases List.mem_cons.mp h with rfl | h'
      · exact ⟨n, by simp [List.enumFrom]⟩
      · obtain ⟨i, hi⟩ := ih (n + 1) h'
        exact ⟨i, by simp [List.enumFrom, hi]⟩

theorem buildTeams_covers (entries : List PartyEntry) (t1idx : List Nat) :
    TeamRespect entries (buildTeams entries t1idx) := by
  intro e he
  obtain ⟨i, hi⟩ := mem_enumFrom_of_mem entries 0 he
  have hi' : (i, e) ∈ entries.enum := hi
  by_cases hin : i ∈ t1idx
  · refine ⟨joinList ((entries.enum.filter (fun e => decide (e.1 ∈ t1idx))).map
      (·.2.member_ids)), by simp [buildTeams], ?_⟩
    intro m hm
    have hfil : (i, e) ∈ entries.enum.filter (fun e => decide (e.1 ∈ t1idx)) :=
      List.mem_filter.mpr ⟨hi', by simpa using hin⟩
    have hmapped : e.member_ids ∈ (entries.enum.filter (fun e => decide (e.1 ∈ t1idx))).map
        (·.2.member_ids) := List.mem_map_of_mem _ hfil
    exact joinList_subset hmapped m hm
  · refine ⟨joinList ((entries.enum.filter (fun e => decide (e.1 ∉ t1idx))).map
      (·.2.member_ids)), by simp [buildTeams], ?_⟩
    intro m hm
    have hfil : (i, e) ∈ entries.enum.filter (fun e => decide (e.1 ∉ t1idx)) :=
      List.mem_filter.mpr ⟨hi', by simpa using hin⟩
    have hmapped : e.member_ids ∈ (entries.enum.filter (fun e => decide (e.1 ∉ t1idx))).map
        (·.2.member_ids) := List.mem_map_of_mem _ hfil
    exact joinList_subset hmapped m hm

theorem exactRec_covers (entries : List PartyEntry) (target : Nat) :
    ∀ (fuel idx : Nat) (t1idx : List Nat) (t1size : Nat) (t1skill : ℚ) (acc : ExactAcc),
      (∀ ts, acc.best_partition = some ts → TeamRespect entries ts) →
      ∀ ts, (exact_partition_recursive entries target fuel idx t1idx t1size t1skill
        acc).best_partition = some ts → TeamRespect entries ts := by
  intro fuel
  induction fuel with
  | zero => intro idx t1idx t1size t1skill acc hacc ts hts; exact hacc ts hts
  | succ fuel ih =>
      intro idx t1idx t1size t1skill acc hacc ts hts
      simp only [exact_partition_recursive] at hts
      by_cases hlen : entries.length ≤ idx
      · rw [if_pos hlen] at hts
        split_ifs at hts with h1 h2
        · simp only at hts
          cases hts
          exact buildTeams_covers entries t1idx
        · exact hacc ts hts
        · exact hacc ts hts
      · rw [if_neg hlen] at hts
        split_ifs at hts with h1 h2 h3 <;>
          first
            | exact ih _ _ _ _ _ (ih _ _ _ _ _ hacc) ts hts
            | exact ih _ _ _ _ _ hacc ts hts
            | exact hacc ts hts

theorem exact_partition_teams_covers {entries : List PartyEntry} {required : Nat}
    {ts : List (List Nat)} (h : exact_partition_teams entries required = some ts) :
    TeamRespect entries ts := by
  simp only [exact_partition_teams] at h
  split_ifs at h with h1
  exact exactRec_covers entries _ 1001 0 [] 0 0 ⟨f64Max, none⟩
    (by intro ts' h'; cases h') ts h

theorem getD_set_self {α : Type} (d : α) :
    ∀ (l : List α) (i : Nat), i < l.length → ∀ v, (l.set i v).getD i d = v := by
  intro l
  induction l with
  | nil => intro i h; cases h
  | cons x xs ih =>
      intro i h v
      cases i with
      | zero => simp
      | succ j => simpa using ih j (by simpa using h) v

theorem getD_set_other {α : Type} (d : α) :
    ∀ (l : List α) (i j : Nat), j ≠ i → ∀ v, (l.set i v).getD j d = l.getD j d := by
  intro l
  induction l with
  | nil => intro i j h v; simp
  | cons x xs ih =>
      intro i j h v
      cases i with
      | zero =>
          cases j with
          | zero => exact absurd rfl h
          | succ j' => simp
      | succ i' =>
          cases j with
          | zero => simp
          | succ j' => simpa using ih i' j' (fun h' => h (by simp [h'])) v

theorem getD_mem {α : Type} (d : α) :
    ∀ (l : List α) (j : Nat), j < l.length → l.getD j d ∈ l := by
  intro l
  induction l with
  | nil => intro j h; cases h
  | cons x xs ih =>
      intro j h
      cases j with
      | zero => simp
      | succ j' => simpa using Or.inr (ih j' (by simpa using h))

theorem snakeStep_length (team_count : Nat) (st : List (List Nat) × Bool × Nat)
    (e : PartyEntry) : (snakeStep team_count st e).1.length = st.1.length := by
  simp [snakeStep]

theorem snakeStep_idx (team_count : Nat) (hcount : 0 < team_count)
    (st : List (List Nat) × Bool × Nat) (e : PartyEntry) (h : st.2.2 < team_count) :
    (snakeStep team_count st e).2.2 < team_count := by
  simp only [snakeStep]
  split_ifs with h1 h2 h3 <;> simp <;> omega

theorem set_length_le {α : Type} :
    ∀ (l : List α) (i : Nat), l.length ≤ i → ∀ v : α, l.set i v = l := by
  intro l
  induction l with
  | nil => intro i _ v; simp
  | cons x xs ih =>
      intro i h v
      cases i with
      | zero => simp at h
      | succ i' => simp [ih i' (by simpa using h) v]

theorem snakeFold_mono (team_count : Nat) {j : Nat} :
    ∀ (entries : List PartyEntry) (st : List (List Nat) × Bool × Nat) (x : Nat),
      x ∈ st.1.getD j [] → x ∈ ((entries.foldl (snakeStep team_count) st).1.getD j []) := by
  intro entries
  induction entries with
  | nil => intro st x h; simpa using h
  | cons e rest ih =>
      intro st x h
      simp only [List.foldl_cons]
      refine ih _ x ?_
      simp only [snakeStep]
      by_cases hj : j = st.2.2
      · rw [hj] at h ⊢
        by_cases hlt : st.2.2 < st.1.length
        · rw [getD_set_self [] st.1 st.2.2 hlt]
          exact List.mem_append.mpr (Or.inl h)
        · rw [set_length_le st.1 st.2.2 (by omega) _]
          exact h
      · rw [getD_set_other [] st.1 st.2.2 j hj]
        exact h

theorem snakeFold_length (team_count : Nat) :
    ∀ (entries : List PartyEntry) (st : List (List Nat) × Bool × Nat),
      (entries.foldl (snakeStep team_count) st).1.length = st.1.length := by
  intro entries
  induction entries with
  | nil => intro st; rfl
  | cons e rest ih =>
      intro st
      simp only [List.foldl_cons]
      rw [ih]
      exact snakeStep_length team_count st e

theorem snakeFold_covers (team_count : Nat) (hcount : 0 < team_count) :
    ∀ (entries : List PartyEntry) (st : List (List Nat) × Bool × Nat),
      st.1.length = team_count → st.2.2 < team_count →
      ∀ e ∈ entries, ∃ j, j < team_count ∧
        ∀ m ∈ e.member_ids, m ∈ ((entries.foldl (snakeStep team_count) st).1.getD j []) := by
  intro entries
  induction entries with
  | nil => intro st _ _ e he; cases he
  | cons e0 rest ih =>
      intro st hlen hidx e he
      rcases List.mem_cons.mp he with rfl | he'
      · refine ⟨st.2.2, hidx, ?_⟩
        intro m hm
        simp only [List.foldl_cons]
        refine snakeFold_mono team_count rest _ m ?_
        simp only [snakeStep]
        rw [getD_set_self [] st.1 st.2.2 (by omega)]
        exact List.mem_append.mpr (Or.inr hm)
      · simp only [List.foldl_cons]
        exact ih (snakeStep team_count st e0)
          ((snakeStep_length team_count st e0).trans hlen)
          (snakeStep_idx team_count hcount st e0 hidx) e he'

theorem snakeAssign_covers (entries : List PartyEntry) (team_count : Nat)
    (hcount : 0 < team_count) : TeamRespect entries (snakeAssign entries team_count) := by
  intro e he
  have h := snakeFold_covers team_count hcount entries
    (List.replicate team_count [], true, 0) (by simp) (by simpa using hcount) e he
  obtain ⟨j, hj, hmem⟩ := h
  have hlen : (entries.foldl (snakeStep team_count)
      (List.replicate team_count [], true, 0)).1.length = team_count := by
    rw [snakeFold_length]
    simp
  refine ⟨(entries.foldl (snakeStep team_count)
    (List.replicate team_count [], true, 0)).1.getD j [], ?_, hmem⟩
  have hjlen : j < (entries.foldl (snakeStep team_count)
      (List.replicate team_count [], true, 0)).1.length := by rw [hlen]; exact hj
  exact getD_mem [] _ j hjlen

theorem team_count_pos (playlist : Playlist) : 0 < playlist.team_count := by
  cases playlist <;> decide

/-- Claim C3 (amended) — party integrity for the team-based branch: whenever
`team_count(playlist)` differs from the number of players (every non-FFA
commit), any two players carrying the same `party_id` are placed on the same
team, through both the exact-partition and the snake-draft paths. -/
theorem party_integrity_team_based
    (cfg : MatchmakingConfig) (player_ids : List Nat) (players : List (Nat × Player))
    (parties : List (Nat × Party)) (playlist : Playlist)
    (hteam : playlist.team_count ≠ player_ids.length)
    (p q pid : Nat) (hp : p ∈ player_ids) (hq : q ∈ player_ids)
    (hpp : (lookupAssoc players p).bind Player.party_id = some pid)
    (hqp : (lookupAssoc players q).bind Player.party_id = some pid) :
    ∃ team ∈ balance_teams cfg player_ids players parties playlist,
      p ∈ team ∧ q ∈ team := by
  -- the grouping fold puts p and q into the same party group
  have hpg := mem_groupFold players player_ids [] hp hpp
  have hqg := mem_groupFold players player_ids [] hq hqp
  set groups := groupFold players player_ids [] with hgroups
  cases hlook : lookupAssoc groups (some pid) with
  | none => rw [hlook] at hpg; cases hpg
  | some members =>
      rw [hlook] at hpg hqg
      simp only [Option.getD_some] at hpg hqg
      have hentry_mem : (some pid, members) ∈ groups := lookupAssoc_mem hlook
      -- hence a party entry with exactly these members
      have hentryE : ∃ e ∈ partyEntries player_ids players parties,
          e.member_ids = members := by
        refine ⟨_, List.mem_map_of_mem _ hentry_mem, rfl⟩
      obtain ⟨e, heE, hemem⟩ := hentryE
      have hresp : ∀ ts, TeamRespect (partyEntries player_ids players parties) ts →
          ∃ team ∈ ts, p ∈ team ∧ q ∈ team := by
        intro ts hts
        obtain ⟨t, ht, hall⟩ := hts e heE
        exact ⟨t, ht, hall p (by rw [hemem]; exact hpg), hall q (by rw [hemem]; exact hqg)⟩
      simp only [balance_teams]
      rw [if_neg hteam]
      split
      · next best_teams heq =>
          split_ifs at heq with hcond
          exact hresp best_teams (exact_partition_teams_covers heq)
      · next heq =>
          refine hresp _ ?_
          intro e' he'
          exact snakeAssign_covers _ playlist.team_count (team_count_pos playlist) e'
            ((mem_insertionSortBy _ _ _).mpr he')

/-- Twelve players of whom players 0 and 1 form party 7. -/
def playersC3 : List (Nat × Player) :=
  (List.range 12).map (fun i =>
    (i, { playerEx i with party_id := if i < 2 then some 7 else none }))

def partyC3 : Party :=
  { id := 7, player_ids := [0, 1], leader_id := 0, avg_skill := 0, skill_disparity := 0
    avg_skill_percentile := (1 / 2 : ℚ), skill_percentile_disparity := 0
    preferred_playlists := [.TeamDeathmatch], platforms := [(.PC, 2)]
    input_devices := [(.Controller, 2)], avg_location := ⟨0, 0⟩ }

def partiesC3 : List (Nat × Party) := [(7, partyC3)]

/-- Counterexample to C3 as stated: in a FreeForAll match, `balance_teams`
makes every player their own team, so the two members of party 7 are *not*
on a common team. -/
theorem ffa_party_split_counterexample :
    ((lookupAssoc playersC3 0).bind Player.party_id = some 7) ∧
    ((lookupAssoc playersC3 1).bind Player.party_id = some 7) ∧
    (0 : Nat) ∈ List.range 12 ∧ (1 : Nat) ∈ List.range 12 ∧
    ¬ ∃ team ∈ balance_teams MatchmakingConfig.default (List.range 12) playersC3
        partiesC3 .FreeForAll, (0 : Nat) ∈ team ∧ (1 : Nat) ∈ team := by
  decide

/-- Witness for the amended C3: in a Team Deathmatch lobby of the same twelve
players, the two members of party 7 do share a team. -/
theorem party_integrity_witness :
    ∃ team ∈ balance_teams MatchmakingConfig.default (List.range 12) playersC3 partiesC3
      .TeamDeathmatch, (0 : Nat) ∈ team ∧ (1 : Nat) ∈ team :=
  party_integrity_team_based MatchmakingConfig.default (List.range 12) playersC3 partiesC3
    .TeamDeathmatch (by decide) 0 1 7 (by decide) (by decide) (by decide) (by decide)

/-! ## Claim C5: the region-aware acceptable-DC envelope -/

/-- The members' individual acceptable-DC sets at the search object's current
wait time, in member order (missing players skipped, as in the source). -/
def memberDcSets (cfg : MatchmakingConfig) (players : List (Nat × Player))
    (data_centers : List DataCenter) (current_time : Nat) (s : SearchObject) :
    List (List Nat) :=
  (s.player_ids.filterMap (lookupAssoc players)).map
    (fun p => p.acceptable_dcs (s.wait_time current_time cfg.tick_interval) cfg p.region
      data_centers)

theorem foldl_lookup_filterMap (players : List (Nat × Player))
    (g : List Nat → Player → List Nat) :
    ∀ (ids : List Nat) (acc : List Nat),
      ids.foldl (fun acc pid =>
        match lookupAssoc players pid with
        | some p => g acc p
        | none => acc) acc =
      (ids.filterMap (lookupAssoc players)).foldl g acc := by
  intro ids
  induction ids with
  | nil => intro acc; rfl
  | cons y ys ih =>
      intro acc
      simp only [List.foldl_cons, List.filterMap_cons]
      cases h : lookupAssoc players y with
      | none => simpa [h] using ih acc
      | some p => simpa [h] using ih (g acc p)

/-- The refresh of `acceptable_dcs` in `run_tick`, expressed as the fold over
the member sets. -/
theorem refreshSearch_acceptable_dcs (cfg : MatchmakingConfig)
    (players : List (Nat × Player)) (data_centers : List DataCenter)
    (current_time : Nat) (s : SearchObject) :
    (refreshSearch cfg players data_centers current_time s).acceptable_dcs =
      (memberDcSets cfg players data_centers current_time s).foldl
        (fun acc d => if acc = [] then d else acc.filter (fun x => decide (x ∈ d))) [] := by
  simp only [refreshSearch, memberDcSets]
  rw [foldl_lookup_filterMap players
    (fun acc p => if acc = [] then
        p.acceptable_dcs (s.wait_time current_time cfg.tick_interval) cfg p.region data_centers
      else acc.filter (fun x => decide (x ∈
        p.acceptable_dcs (s.wait_time current_time cfg.tick_interval) cfg p.region
          data_centers)))]
  rw [List.foldl_map]

theorem intersect_fold_with_common {x : Nat} :
    ∀ (sets : List (List Nat)) (acc : List Nat), x ∈ acc → (∀ l ∈ sets, x ∈ l) →
      ∀ d, d ∈ sets.foldl
          (fun acc d => if acc = [] then d else acc.filter (fun y => decide (y ∈ d))) acc ↔
        d ∈ acc ∧ ∀ l ∈ sets, d ∈ l := by
  intro sets
  induction sets with
  | nil => intro acc _ _ d; simp
  | cons m ms ih =>
      intro acc hx hall d
      have hne : acc ≠ [] := by intro h; rw [h] at hx; cases hx
      simp only [List.foldl_cons, if_neg hne]
      have hx' : x ∈ acc.filter (fun y => decide (y ∈ m)) := by
        rw [List.mem_filter]
        exact ⟨hx, by simpa using hall m (by simp)⟩
      rw [ih _ hx' (fun l hl => hall l (by simp [hl])) d]
      rw [List.mem_filter]
      constructor
      · rintro ⟨⟨hacc, hm⟩, hms⟩
        refine ⟨hacc, ?_⟩
        intro l hl
        rcases List.mem_cons.mp hl with rfl | hl'
        · simpa using hm
        · exact hms l hl'
      · rintro ⟨hacc, hl⟩
        exact ⟨⟨hacc, by simpa using hl m (by simp)⟩, fun l hl' => hl l (by simp [hl'])⟩

/-- Claim C5 (amended).  Part 1: the per-player characterization — a data
center is acceptable iff the player has a ping entry for it, the entry passes
both ping constraints, and the data center's region is allowed by the
three-tier wait-time policy (own region below 10 s, own plus adjacent
below 30 s, any region from 30 s).  Part 2: the search object's per-tick set
equals the intersection of the members' individual sets whenever those sets
have a common element; the counterexample shows the unrestricted intersection
claim fails (an empty intermediate intersection is replaced by the next
member's whole set). -/
theorem acceptable_dcs_characterization :
    (∀ (p : Player) (wait_time : ℚ) (cfg : MatchmakingConfig) (player_region : Region)
        (data_centers : List DataCenter) (dcId : Nat),
      dcId ∈ p.acceptable_dcs wait_time cfg player_region data_centers ↔
        ∃ ping, (dcId, ping) ∈ p.dc_pings ∧
          ping ≤ p.best_ping + cfg.region_delta_ping_backoff player_region wait_time ∧
          ping ≤ cfg.get_region_max_ping player_region ∧
          ∃ dc, findDc data_centers dcId = some dc ∧
            (if wait_time < 10 then dc.region = player_region
             else if wait_time < 30 then
               dc.region = player_region ∨ dc.region ∈ player_region.adjacent_regions
             else True)) ∧
    (∀ (cfg : MatchmakingConfig) (players : List (Nat × Player))
        (data_centers : List DataCenter) (current_time : Nat) (s : SearchObject),
      (∃ x, ∀ l ∈ memberDcSets cfg players data_centers current_time s, x ∈ l) →
      memberDcSets cfg players data_centers current_time s ≠ [] →
      ∀ d, d ∈ (refreshSearch cfg players data_centers current_time s).acceptable_dcs ↔
        ∀ l ∈ memberDcSets cfg players data_centers current_time s, d ∈ l) := by
  constructor
  · intro p wait_time cfg player_region data_centers dcId
    simp only [Player.acceptable_dcs, List.mem_map, List.mem_filter]
    constructor
    · rintro ⟨⟨d, ping⟩, ⟨hmem, hcond⟩, hfst⟩
      simp only at hfst
      subst hfst
      simp only [Bool.and_eq_true, decide_eq_true_eq] at hcond
      obtain ⟨⟨h1, h2⟩, h3⟩ := hcond
      refine ⟨ping, hmem, h1, h2, ?_⟩
      cases hdc : findDc data_centers d with
      | none => rw [hdc] at h3; cases h3
      | some dc =>
          rw [hdc] at h3
          rw [decide_eq_true_eq] at h3
          refine ⟨dc, rfl, ?_⟩
          split_ifs at h3 ⊢ with hw1 hw2 <;> first | simpa using h3 | trivial
    · rintro ⟨ping, hmem, h1, h2, dc, hdc, hreg⟩
      refine ⟨(dcId, ping), ⟨hmem, ?_⟩, rfl⟩
      simp only [Bool.and_eq_true, decide_eq_true_eq]
      refine ⟨⟨h1, h2⟩, ?_⟩
      rw [hdc]
      rw [decide_eq_true_eq]
      split_ifs at hreg ⊢ with hw1 hw2 <;>
        first | simpa using hreg | (cases dc.region <;> simp)
  · intro cfg players data_centers current_time s hcommon hne d
    obtain ⟨x, hx⟩ := hcommon
    rw [refreshSearch_acceptable_dcs]
    cases hsets : memberDcSets cfg players data_centers current_time s with
    | nil => exact absurd hsets hne
    | cons m ms =>
        rw [hsets] at hx
        have hxm : x ∈ m := hx m (by simp)
        have hstep : ((m :: ms).foldl
            (fun acc d => if acc = [] then d else acc.filter (fun y => decide (y ∈ d))) []) =
            ms.foldl (fun acc d => if acc = [] then d else acc.filter (fun y => decide (y ∈ d)))
              m := by simp
        rw [hstep]
        rw [intersect_fold_with_common ms m hxm (fun l hl => hx l (by simp [hl])) d]
        constructor
        · rintro ⟨hm, hms⟩
          intro l hl
          rcases List.mem_cons.mp hl with rfl | hl'
          · exact hm
          · exact hms l hl'
        · intro hall
          exact ⟨hall m (by simp), fun l hl => hall l (by simp [hl])⟩

/-- A member with no ping entries (its individual acceptable set is empty). -/
def playerNoDc : Player := { playerEx 5 with id := 5, dc_pings := [] }

/-- A member with one acceptable data center. -/
def playerWithDc : Player :=
  { playerEx 6 with id := 6, dc_pings := [(3, 20)], best_dc := some 3, best_ping := 20 }

def dcC5 : DataCenter := { dcEx with id := 3 }

def playersC5 : List (Nat × Player) := [(5, playerNoDc), (6, playerWithDc)]

def searchC5 : SearchObject :=
  { searchEx with id := 9, player_ids := [5, 6], acceptable_dcs := [] }

/-- Counterexample to the party half of C5 as stated: member 5's individual
acceptable set is empty, so the intersection of the members' sets is empty,
yet the per-tick refresh produces `[3]` — the fold replaces an empty
accumulator by the next member's whole set instead of intersecting. -/
theorem party_dc_intersection_counterexample :
    (5 : Nat) ∈ searchC5.player_ids ∧
    lookupAssoc playersC5 5 = some playerNoDc ∧
    playerNoDc.acceptable_dcs (searchC5.wait_time 0 MatchmakingConfig.default.tick_interval)
      MatchmakingConfig.default playerNoDc.region [dcC5] = [] ∧
    (refreshSearch MatchmakingConfig.default playersC5 [dcC5] 0 searchC5).acceptable_dcs =
      [3] := by
  decide

def playerWithDc5 : Player :=
  { playerEx 5 with id := 5, dc_pings := [(3, 25)], best_dc := some 3, best_ping := 25 }

def playersC5b : List (Nat × Player) := [(5, playerWithDc5), (6, playerWithDc)]

/-- Witness for C5: the characterization applied to a concrete player and
data center, and the intersection equality applied to a two-member party
whose sets share data center 3. -/
theorem acceptable_dcs_witness :
    ((3 : Nat) ∈ playerWithDc.acceptable_dcs 0 MatchmakingConfig.default .Other [dcC5] ↔
      ∃ ping, ((3 : Nat), ping) ∈ playerWithDc.dc_pings ∧
        ping ≤ playerWithDc.best_ping +
          MatchmakingConfig.default.region_delta_ping_backoff .Other 0 ∧
        ping ≤ MatchmakingConfig.default.get_region_max_ping .Other ∧
        ∃ dc, findDc [dcC5] 3 = some dc ∧
          (if (0 : ℚ) < 10 then dc.region = Region.Other
           else if (0 : ℚ) < 30 then
             dc.region = Region.Other ∨ dc.region ∈ Region.Other.adjacent_regions
           else True)) ∧
    ((3 : Nat) ∈ (refreshSearch MatchmakingConfig.default playersC5b [dcC5] 0
        searchC5).acceptable_dcs ↔
      ∀ l ∈ memberDcSets MatchmakingConfig.default playersC5b [dcC5] 0 searchC5,
        (3 : Nat) ∈ l) :=
  ⟨acceptable_dcs_characterization.1 playerWithDc 0 MatchmakingConfig.default .Other [dcC5] 3,
   acceptable_dcs_characterization.2 MatchmakingConfig.default playersC5b [dcC5] 0 searchC5
     ⟨3, by decide⟩ (by decide) 3⟩

/-! ## Claim C6: the distance zero-point -/

/-- The haversine distance from a point to itself is zero; every intermediate
term evaluates exactly (sin 0 = 0, √0 = 0, arcsin 0 = 0). -/
theorem distance_km_self (l : Location) : Location.distance_km l l = 0 := by
  unfold Location.distance_km toRadians
  simp

/-- Claim C6 (amended): the self-distance is zero for every configuration and
every search object whose input-device multiset does not contain both device
kinds and whose platform multiset is non-empty.  (The counterexample shows
the unconditional `distance(x, x) = 0` of the claim fails for a mixed-input
search object: the 0.5 input penalty fires against itself, because the code
penalizes whenever one side has a mouse-keyboard player and the other a
controller player — not only when the multisets are mutually exclusive.) -/
theorem self_distance_zero_unmixed (cfg : MatchmakingConfig) (x : SearchObject)
    (hmix : ¬ (0 < (lookupAssoc x.input_devices InputDevice.MouseKeyboard).getD 0 ∧
               0 < (lookupAssoc x.input_devices InputDevice.Controller).getD 0))
    (hplat : x.platforms.map Prod.fst ≠ []) :
    calculate_distance cfg x x = 0 := by
  unfold calculate_distance
  rw [distance_km_self]
  have hinput : input_device_distance x x = 0 := by
    unfold input_device_distance
    rw [if_neg]
    intro h
    rcases h with ⟨h1, h2⟩ | ⟨h1, h2⟩ <;> exact hmix ⟨by omega, by omega⟩
  have hplatd : platform_distance x x = 0 := by
    unfold platform_distance
    rw [if_neg]
    intro hall
    cases hk : x.platforms.map Prod.fst with
    | nil => exact hplat hk
    | cons a as => exact hall a (by rw [hk]; simp) (by rw [hk]; simp)
  rw [hinput, hplatd]
  simp

/-- A search object whose party mixes mouse-keyboard and controller players. -/
def soMixed : SearchObject :=
  { id := 2, player_ids := [0, 1], avg_skill_percentile := (1 / 2 : ℚ), skill_disparity := 0
    avg_location := ⟨0, 0⟩, platforms := [(.PC, 2)]
    input_devices := [(.MouseKeyboard, 1), (.Controller, 1)]
    acceptable_playlists := [.TeamDeathmatch], search_start_time := 0, acceptable_dcs := [0] }

/-- Counterexample to C6 as stated: under the default weights, the
self-distance of a mixed-input search object is `0.15 * 0.5 = 0.075 ≠ 0`. -/
theorem self_distance_nonzero_counterexample :
    calculate_distance MatchmakingConfig.default soMixed soMixed ≠ 0 := by
  unfold calculate_distance
  rw [distance_km_self]
  have h1 : input_device_distance soMixed soMixed = (1 / 2 : ℚ) := by decide
  have h2 : platform_distance soMixed soMixed = 0 := by decide
  rw [h1, h2]
  have h3 : soMixed.avg_skill_percentile = (1 / 2 : ℚ) := rfl
  rw [h3]
  show (MatchmakingConfig.default.weight_geo : ℝ) * (0 / 20000) +
      (MatchmakingConfig.default.weight_skill : ℝ) * |((1 / 2 : ℚ) : ℝ) - ((1 / 2 : ℚ) : ℝ)| +
      (MatchmakingConfig.default.weight_input : ℝ) * (((1 / 2 : ℚ) : ℝ)) +
      (MatchmakingConfig.default.weight_platform : ℝ) * ((0 : ℚ) : ℝ) ≠ 0
  have hw : (MatchmakingConfig.default.weight_input : ℝ) = ((3 / 20 : ℚ) : ℝ) := rfl
  rw [hw]
  push_cast
  norm_num

/-- Witness for the amended C6: a single-device search object has
self-distance exactly zero. -/
theorem self_distance_zero_witness :
    calculate_distance MatchmakingConfig.default searchEx searchEx = 0 :=
  self_distance_zero_unmixed MatchmakingConfig.default searchEx (by decide) (by decide)

/-! ## Claim C7: effects of the quit decision -/

/-- Claim C7 (amended): after a quit decision the player is Offline,
`last_session_experience` is the experience window held at the decision,
`last_session_end_time` is the current tick and the current window is
cleared — unconditionally; the session length is posted to the histogram
(and the completed-session counter incremented) only when
`matches_in_session > 0`, and the histogram is untouched when it is zero. -/
theorem quit_transition_effects (p : Player) (current_time : Nat)
    (stats : SimulationStats) (sc : List (Nat × (Nat × Nat))) (total : Nat) :
    (process_quit p current_time stats sc total).1.state = PlayerState.Offline ∧
    (process_quit p current_time stats sc total).1.last_session_experience =
      p.recent_experience ∧
    (process_quit p current_time stats sc total).1.last_session_end_time =
      some current_time ∧
    (process_quit p current_time stats sc total).1.recent_experience = [] ∧
    (0 < p.matches_in_session →
      (process_quit p current_time stats sc total).2.1.session_length_distribution =
        incAt (extendTo stats.session_length_distribution p.matches_in_session)
          p.matches_in_session ∧
      (process_quit p current_time stats sc total).2.1.total_sessions_completed =
        stats.total_sessions_completed + 1) ∧
    (p.matches_in_session = 0 →
      (process_quit p current_time stats sc total).2.1.session_length_distribution =
        stats.session_length_distribution ∧
      (process_quit p current_time stats sc total).2.1.total_sessions_completed =
        stats.total_sessions_completed) := by
  unfold process_quit
  split_ifs with h
  · exact ⟨rfl, rfl, rfl, rfl, fun _ => ⟨rfl, rfl⟩, fun h0 => absurd h (by omega)⟩
  · exact ⟨rfl, rfl, rfl, rfl, fun h0 => absurd h0 h, fun _ => ⟨rfl, rfl⟩⟩

/-- A player quitting right after the first match of a session
(`matches_in_session = 0`, a non-empty experience window). -/
def playerC7 : Player :=
  { playerEx 0 with
    state := .InMatch
    matches_in_session := 0
    recent_experience := [⟨0, 10, false, true, (1 / 2 : ℚ)⟩] }

def statsC7 : SimulationStats :=
  { SimulationStats.default with session_length_distribution := [0, 3] }

/-- Counterexample to C7 as stated: this quit goes offline and clears the
window, yet nothing is posted to the session-length histogram and the
completed-session counter does not move. -/
theorem quit_histogram_skip_counterexample :
    (process_quit playerC7 7 statsC7 [] 0).1.state = PlayerState.Offline ∧
    (process_quit playerC7 7 statsC7 [] 0).1.recent_experience = [] ∧
    (process_quit playerC7 7 statsC7 [] 0).2.1.session_length_distribution =
      statsC7.session_length_distribution ∧
    (process_quit playerC7 7 statsC7 [] 0).2.1.total_sessions_completed =
      statsC7.total_sessions_completed := by
  decide

def playerC7b : Player := { playerC7 with matches_in_session := 3 }

/-- Witness for the amended C7: a quit after three in-session matches posts
length 3 to the histogram. -/
theorem quit_transition_witness :
    (process_quit playerC7b 7 statsC7 [] 0).1.state = PlayerState.Offline ∧
    (process_quit playerC7b 7 statsC7 [] 0).1.last_session_experience =
      playerC7b.recent_experience ∧
    (process_quit playerC7b 7 statsC7 [] 0).2.1.session_length_distribution =
      incAt (extendTo statsC7.session_length_distribution 3) 3 := by
  refine ⟨(quit_transition_effects playerC7b 7 statsC7 [] 0).1,
    (quit_transition_effects playerC7b 7 statsC7 [] 0).2.1, ?_⟩
  exact ((quit_transition_effects playerC7b 7 statsC7 [] 0).2.2.2.2.1 (by decide)).1

/-! ## Claim C8: failed party operations do not modify state -/

theorem create_party_state_or_ok (st : Simulation) (ids : List Nat) :
    (st.create_party ids).1 = st ∨ ∃ n, (st.create_party ids).2 = Except.ok n := by
  unfold Simulation.create_party
  by_cases h1 : ids = []
  · rw [if_pos h1]
    exact Or.inl rfl
  · rw [if_neg h1]
    split
    · exact Or.inl rfl
    · by_cases h2 : 6 < ids.length
      · rw [if_pos h2]
        exact Or.inl rfl
      · rw [if_neg h2]
        exact Or.inr ⟨_, rfl⟩

theorem create_party_error_frame (st : Simulation) (ids : List Nat) (e : String)
    (h : (st.create_party ids).2 = .error e) : (st.create_party ids).1 = st := by
  rcases create_party_state_or_ok st ids with h1 | ⟨n, h1⟩
  · exact h1
  · rw [h1] at h
    exact absurd h (by simp)

theorem join_party_state_or_ok (st : Simulation) (party_id player_id : Nat) :
    (st.join_party party_id player_id).1 = st ∨
    (st.join_party party_id player_id).2 = Except.ok () := by
  unfold Simulation.join_party
  split
  · exact Or.inl rfl
  · rename_i party heq
    by_cases h1 : 6 ≤ party.player_ids.length
    · rw [if_pos h1]
      exact Or.inl rfl
    · rw [if_neg h1]
      split
      · exact Or.inl rfl
      · rename_i p heq2
        by_cases h2 : p.party_id.isSome
        · rw [if_pos h2]
          exact Or.inl rfl
        · rw [if_neg h2]
          by_cases h3 : ¬(p.state = PlayerState.InLobby ∨ p.state = PlayerState.Offline)
          · rw [if_pos h3]
            exact Or.inl rfl
          · rw [if_neg h3]
            exact Or.inr rfl

theorem join_party_error_frame (st : Simulation) (party_id player_id : Nat) (e : String)
    (h : (st.join_party party_id player_id).2 = .error e) :
    (st.join_party party_id player_id).1 = st := by
  rcases join_party_state_or_ok st party_id player_id with h1 | h1
  · exact h1
  · rw [h1] at h
    exact absurd h (by simp)

theorem leave_party_state_or_ok (st : Simulation) (party_id player_id : Nat) :
    (st.leave_party party_id player_id).1 = st ∨
    (st.leave_party party_id player_id).2 = Except.ok () := by
  unfold Simulation.leave_party
  split
  · exact Or.inl rfl
  · rename_i party heq
    by_cases h1 : player_id ∈ party.player_ids
    · rw [if_pos h1]
      refine Or.inr ?_
      dsimp only
      split <;> rfl
    · rw [if_neg h1]
      exact Or.inl rfl

theorem leave_party_error_frame (st : Simulation) (party_id player_id : Nat) (e : String)
    (h : (st.leave_party party_id player_id).2 = .error e) :
    (st.leave_party party_id player_id).1 = st := by
  rcases leave_party_state_or_ok st party_id player_id with h1 | h1
  · exact h1
  · rw [h1] at h
    exact absurd h (by simp)

theorem disband_party_state_or_ok (st : Simulation) (party_id : Nat) :
    (st.disband_party party_id).1 = st ∨
    (st.disband_party party_id).2 = Except.ok () := by
  unfold Simulation.disband_party
  split
  · exact Or.inl rfl
  · exact Or.inr rfl

theorem disband_party_error_frame (st : Simulation) (party_id : Nat) (e : String)
    (h : (st.disband_party party_id).2 = .error e) : (st.disband_party party_id).1 = st := by
  rcases disband_party_state_or_ok st party_id with h1 | h1
  · exact h1
  · rw [h1] at h
    exact absurd h (by simp)

/-- Claim C8: every party operation that returns an error leaves the whole
simulation state — in particular the party table and every player's
`party_id` and `state` — unchanged. -/
theorem party_ops_error_frame :
    (∀ (st : Simulation) (ids : List Nat) (e : String),
      (st.create_party ids).2 = .error e →
      (st.create_party ids).1.parties = st.parties ∧
      (st.create_party ids).1.players = st.players) ∧
    (∀ (st : Simulation) (party_id player_id : Nat) (e : String),
      (st.join_party party_id player_id).2 = .error e →
      (st.join_party party_id player_id).1.parties = st.parties ∧
      (st.join_party party_id player_id).1.players = st.players) ∧
    (∀ (st : Simulation) (party_id player_id : Nat) (e : String),
      (st.leave_party party_id player_id).2 = .error e →
      (st.leave_party party_id player_id).1.parties = st.parties ∧
      (st.leave_party party_id player_id).1.players = st.players) ∧
    (∀ (st : Simulation) (party_id : Nat) (e : String),
      (st.disband_party party_id).2 = .error e →
      (st.disband_party party_id).1.parties = st.parties ∧
      (st.disband_party party_id).1.players = st.players) := by
  refine ⟨?_, ?_, ?_, ?_⟩
  · intro st ids e h
    rw [create_party_error_frame st ids e h]
    exact ⟨rfl, rfl⟩
  · intro st party_id player_id e h
    rw [join_party_error_frame st party_id player_id e h]
    exact ⟨rfl, rfl⟩
  · intro st party_id player_id e h
    rw [leave_party_error_frame st party_id player_id e h]
    exact ⟨rfl, rfl⟩
  · intro st party_id e h
    rw [disband_party_error_frame st party_id e h]
    exact ⟨rfl, rfl⟩

/-- Witness for C8: each of the four operations at a concrete failing input
(empty member list; missing party), with the state unchanged. -/
theorem party_ops_error_frame_witness :
    (((Simulation.new MatchmakingConfig.default 42).create_party []).1.parties =
      (Simulation.new MatchmakingConfig.default 42).parties ∧
     ((Simulation.new MatchmakingConfig.default 42).create_party []).1.players =
      (Simulation.new MatchmakingConfig.default 42).players) ∧
    (((Simulation.new MatchmakingConfig.default 42).join_party 99 0).1.parties =
      (Simulation.new MatchmakingConfig.default 42).parties ∧
     ((Simulation.new MatchmakingConfig.default 42).join_party 99 0).1.players =
      (Simulation.new MatchmakingConfig.default 42).players) ∧
    (((Simulation.new MatchmakingConfig.default 42).leave_party 99 0).1.parties =
      (Simulation.new MatchmakingConfig.default 42).parties ∧
     ((Simulation.new MatchmakingConfig.default 42).leave_party 99 0).1.players =
      (Simulation.new MatchmakingConfig.default 42).players) ∧
    (((Simulation.new MatchmakingConfig.default 42).disband_party 99).1.parties =
      (Simulation.new MatchmakingConfig.default 42).parties ∧
     ((Simulation.new MatchmakingConfig.default 42).disband_party 99).1.players =
      (Simulation.new MatchmakingConfig.default 42).players) :=
  ⟨party_ops_error_frame.1 _ [] "Cannot create party with no players" rfl,
   party_ops_error_frame.2.1 _ 99 0 "Party 99 does not exist" rfl,
   party_ops_error_frame.2.2.1 _ 99 0 "Party 99 does not exist" rfl,
   party_ops_error_frame.2.2.2 _ 99 "Party 99 does not exist" rfl⟩

/-! ## Claim C9: leader reassignment on leaving -/

theorem update_aggregates_ids (q : Party) (players : List (Nat × Player)) :
    (q.update_aggregates players).player_ids = q.player_ids ∧
    (q.update_aggregates players).leader_id = q.leader_id := by
  unfold Party.update_aggregates
  dsimp only
  split <;> exact ⟨rfl, rfl⟩

theorem headD_mem {l : List Nat} (h : l ≠ []) (d : Nat) : l.headD d ∈ l := by
  cases l with
  | nil => exact absurd rfl h
  | cons x xs => simp

/-- Claim C9: a successful `leave_party` of a member, with at least one
member remaining, keeps the party alive with the remaining members; if the
leaver was the leader, the leader becomes the first remaining entry, and in
every case a leader that was a member stays a member. -/
theorem leave_party_leader_reassignment (st : Simulation) (party_id player_id : Nat)
    (party : Party) (hparty : lookupAssoc st.parties party_id = some party)
    (hmem : player_id ∈ party.player_ids) :
    (st.leave_party party_id player_id).2 = .ok () ∧
    (party.player_ids.filter (fun i => decide (i ≠ player_id)) ≠ [] →
      ∃ party',
        lookupAssoc (st.leave_party party_id player_id).1.parties party_id = some party' ∧
        party'.player_ids = party.player_ids.filter (fun i => decide (i ≠ player_id)) ∧
        (party.leader_id = player_id →
          party'.leader_id =
            (party.player_ids.filter (fun i => decide (i ≠ player_id))).headD 0) ∧
        (party.leader_id ≠ player_id → party'.leader_id = party.leader_id) ∧
        (party.leader_id ∈ party.player_ids → party'.leader_id ∈ party'.player_ids)) := by
  unfold Simulation.leave_party
  rw [hparty]
  dsimp only
  rw [if_pos hmem]
  by_cases hempty : party.player_ids.filter (fun i => decide (i ≠ player_id)) = []
  · rw [if_pos hempty]
    exact ⟨rfl, fun h => absurd hempty h⟩
  · rw [if_neg hempty]
    refine ⟨rfl, fun _ => ?_⟩
    set players' := updateAssoc st.players player_id (fun q => { q with party_id := none })
    set new_ids := party.player_ids.filter (fun i => decide (i ≠ player_id)) with hnew
    set new_leader := if party.leader_id = player_id then new_ids.headD 0 else party.leader_id
      with hleader
    set party2 := ({ party with player_ids := new_ids, leader_id := new_leader
      } : Party).update_aggregates players' with hparty2
    refine ⟨party2, ?_, ?_, ?_, ?_, ?_⟩
    · show lookupAssoc (updateAssoc st.parties party_id (fun _ => party2)) party_id = some party2
      rw [lookupAssoc_updateAssoc_self]
      rw [hparty]
      rfl
    · rw [hparty2]
      exact (update_aggregates_ids _ players').1
    · intro hld
      rw [hparty2]
      rw [(update_aggregates_ids _ players').2]
      simp only [hleader, if_pos hld]
    · intro hld
      rw [hparty2]
      rw [(update_aggregates_ids _ players').2]
      simp only [hleader, if_neg hld]
    · intro hldmem
      rw [hparty2]
      rw [(update_aggregates_ids _ players').2, (update_aggregates_ids _ players').1]
      by_cases hld : party.leader_id = player_id
      · simp only [hleader, if_pos hld]
        exact headD_mem hempty 0
      · simp only [hleader, if_neg hld]
        rw [hnew, List.mem_filter]
        exact ⟨hldmem, by simpa using hld⟩

def partyC9 : Party := { partyC3 with id := 0 }

def stC9 : Simulation :=
  { Simulation.new MatchmakingConfig.default 42 with
    players := [(0, { playerEx 0 with party_id := some 0, state := .InLobby }),
                (1, { playerEx 1 with party_id := some 0, state := .InLobby })]
    parties := [(0, partyC9)] }

/-- Witness for C9: the leader of the concrete two-player party leaves; the
party survives with member 1, who becomes the leader. -/
theorem leave_party_witness :
    (stC9.leave_party 0 0).2 = .ok () ∧
    (∃ party', lookupAssoc (stC9.leave_party 0 0).1.parties 0 = some party' ∧
      party'.player_ids = partyC9.player_ids.filter (fun i => decide (i ≠ 0)) ∧
      party'.leader_id ∈ party'.player_ids) := by
  have h := leave_party_leader_reassignment stC9 0 0 partyC9 rfl (by decide)
  obtain ⟨hok, hner⟩ := h
  obtain ⟨party', hl, hids, hlead1, hlead2, hleadmem⟩ := hner (by decide)
  exact ⟨hok, party', hl, hids, hleadmem (by decide)⟩

/-! ## Claim C10: reset_stats replaces the statistics record and nothing
else -/

/-- Claim C10: `reset_stats` replaces the whole statistics record with the
derived default — so `churn_threshold_ticks` becomes 0 even though
`Simulation::new` initializes it to 100 — while the players, parties, data
centers, active matches, configuration, search queue and current tick are
untouched. -/
theorem reset_stats_effects (s : Simulation) (cfg : MatchmakingConfig) (seed : Nat) :
    s.reset_stats.stats = SimulationStats.default ∧
    s.reset_stats.stats.churn_threshold_ticks = 0 ∧
    (Simulation.new cfg seed).stats.churn_threshold_ticks = 100 ∧
    s.reset_stats.players = s.players ∧
    s.reset_stats.parties = s.parties ∧
    s.reset_stats.data_centers = s.data_centers ∧
    s.reset_stats.matches_active = s.matches_active ∧
    s.reset_stats.config = s.config ∧
    s.reset_stats.current_time = s.current_time ∧
    s.reset_stats.searches = s.searches :=
  ⟨rfl, rfl, rfl, rfl, rfl, rfl, rfl, rfl, rfl, rfl⟩
